import Mathlib

/-!
# Verification of the sngrep packet pipeline against its specification

This file gives a shallow embedding, in Lean 4, of the parts of the sngrep
source (settings, dissector parser, message storage helpers, HEP capture
endpoints and HEP output codec) that the specified claims are about, and
proves or refutes each claim.

Conventions:
* C strings become Lean `String` (or `List Nat` byte lists where the code
  works on raw buffers); `NULL`-able pointers become `Option`.
* GLib hash tables become functions `String → Option String`.
* Stateful C functions become pure functions returning the new state.
* Machine integers are `Nat` with explicit `% 2 ^ w` where overflow matters.
-/

/-! ## Settings model (src/setting.c)

`enum SettingId` constructors follow the `SETTING_*` identifiers used by
`setting.c` (the three `SETTING_SYNTAX*` ids are abbreviated `SETTING_STX*`).
Both optional compile features (`WITH_SSL`, `USE_HEP`) are taken as enabled,
matching the claims which exercise HEP settings. -/

inductive SettingId where
  | SETTING_BACKGROUND
  | SETTING_COLORMODE
  | SETTING_STX
  | SETTING_STX_TAG
  | SETTING_STX_BRANCH
  | SETTING_ALTKEY_HINT
  | SETTING_EXITPROMPT
  | SETTING_CAPTURE_LIMIT
  | SETTING_CAPTURE_DEVICE
  | SETTING_CAPTURE_OUTFILE
  | SETTING_CAPTURE_KEYFILE
  | SETTING_CAPTURE_TLSSERVER
  | SETTING_CAPTURE_RTP
  | SETTING_CAPTURE_PACKET_IP
  | SETTING_CAPTURE_PACKET_UDP
  | SETTING_CAPTURE_PACKET_TCP
  | SETTING_CAPTURE_PACKET_TLS
  | SETTING_CAPTURE_PACKET_HEP
  | SETTING_CAPTURE_PACKET_WS
  | SETTING_CAPTURE_PACKET_SIP
  | SETTING_CAPTURE_PACKET_SDP
  | SETTING_CAPTURE_PACKET_RTP
  | SETTING_CAPTURE_PACKET_RTCP
  | SETTING_CAPTURE_STORAGE
  | SETTING_CAPTURE_ROTATE
  | SETTING_SIP_NOINCOMPLETE
  | SETTING_SIP_HEADER_X_CID
  | SETTING_SIP_CALLS
  | SETTING_SAVEPATH
  | SETTING_DISPLAY_ALIAS
  | SETTING_CL_SCROLLSTEP
  | SETTING_CL_COLORATTR
  | SETTING_CL_AUTOSCROLL
  | SETTING_CL_SORTFIELD
  | SETTING_CL_SORTORDER
  | SETTING_CL_FIXEDCOLS
  | SETTING_CL_COL_INDEX_POS
  | SETTING_CL_COL_INDEX_WIDTH
  | SETTING_CL_COL_SIPFROM_POS
  | SETTING_CL_COL_SIPFROM_WIDTH
  | SETTING_CL_COL_SIPFROMUSER_POS
  | SETTING_CL_COL_SIPFROMUSER_WIDTH
  | SETTING_CL_COL_SIPTO_POS
  | SETTING_CL_COL_SIPTO_WIDTH
  | SETTING_CL_COL_SIPTOUSER_POS
  | SETTING_CL_COL_SIPTOUSER_WIDTH
  | SETTING_CL_COL_SRC_POS
  | SETTING_CL_COL_SRC_WIDTH
  | SETTING_CL_COL_DST_POS
  | SETTING_CL_COL_DST_WIDTH
  | SETTING_CL_COL_CALLID_POS
  | SETTING_CL_COL_CALLID_WIDTH
  | SETTING_CL_COL_XCALLID_POS
  | SETTING_CL_COL_XCALLID_WIDTH
  | SETTING_CL_COL_DATE_POS
  | SETTING_CL_COL_DATE_WIDTH
  | SETTING_CL_COL_TIME_POS
  | SETTING_CL_COL_TIME_WIDTH
  | SETTING_CL_COL_METHOD_POS
  | SETTING_CL_COL_METHOD_WIDTH
  | SETTING_CL_COL_TRANSPORT_POS
  | SETTING_CL_COL_TRANSPORT_WIDTH
  | SETTING_CL_COL_MSGCNT_POS
  | SETTING_CL_COL_MSGCNT_WIDTH
  | SETTING_CL_COL_CALLSTATE_POS
  | SETTING_CL_COL_CALLSTATE_WIDTH
  | SETTING_CL_COL_CONVDUR_POS
  | SETTING_CL_COL_CONVDUR_WIDTH
  | SETTING_CL_COL_TOTALDUR_POS
  | SETTING_CL_COL_TOTALDUR_WIDTH
  | SETTING_CL_COL_REASON_TXT_POS
  | SETTING_CL_COL_REASON_TXT_WIDTH
  | SETTING_CL_COL_WARNING_POS
  | SETTING_CL_COL_WARNING_WIDTH
  | SETTING_CF_FORCERAW
  | SETTING_CF_RAWMINWIDTH
  | SETTING_CF_RAWFIXEDWIDTH
  | SETTING_CF_SPLITCALLID
  | SETTING_CF_HIGHTLIGHT
  | SETTING_CF_SCROLLSTEP
  | SETTING_CF_LOCALHIGHLIGHT
  | SETTING_CF_SDP_INFO
  | SETTING_CF_MEDIA
  | SETTING_CF_ONLYMEDIA
  | SETTING_CF_DELTA
  | SETTING_CF_HIDEDUPLICATE
  | SETTING_CR_SCROLLSTEP
  | SETTING_CR_NON_ASCII
  | SETTING_FILTER_PAYLOAD
  | SETTING_FILTER_METHODS
  | SETTING_HEP_SEND
  | SETTING_HEP_SEND_VER
  | SETTING_HEP_SEND_ADDR
  | SETTING_HEP_SEND_PORT
  | SETTING_HEP_SEND_PASS
  | SETTING_HEP_SEND_ID
  | SETTING_HEP_LISTEN
  | SETTING_HEP_LISTEN_VER
  | SETTING_HEP_LISTEN_ADDR
  | SETTING_HEP_LISTEN_PORT
  | SETTING_HEP_LISTEN_PASS
  | SETTING_HEP_LISTEN_UUID
  deriving DecidableEq, Repr

open SettingId

/-- `enum SettingFormat` of setting.h. -/
inductive SettingFmt where
  | SETTING_FMT_STRING
  | SETTING_FMT_NUMBER
  | SETTING_FMT_BOOLEAN
  | SETTING_FMT_ENUM
  deriving DecidableEq, Repr

open SettingFmt

/-- `struct _Setting`: name, format, current value and (for boolean/enum
settings) the list of valid values. -/
structure Setting where
  name : String
  fmt : SettingFmt
  value : String
  valuelist : List String
  deriving DecidableEq, Repr

/-- `setting_number_new` of setting.c. -/
def setting_number_new (name value : String) : Setting :=
  ⟨name, SETTING_FMT_NUMBER, value, []⟩

/-- `setting_string_new` of setting.c. -/
def setting_string_new (name value : String) : Setting :=
  ⟨name, SETTING_FMT_STRING, value, []⟩

/-- `setting_bool_new` of setting.c: value list is `g_strsplit("on,off", ",")`. -/
def setting_bool_new (name value : String) : Setting :=
  ⟨name, SETTING_FMT_BOOLEAN, value, ["on", "off"]⟩

/-- `setting_enum_new` of setting.c: value list is the comma split of the
`valuelist` argument. -/
def setting_enum_new (name value valuelist : String) : Setting :=
  ⟨name, SETTING_FMT_ENUM, value, valuelist.splitOn ","⟩

/-- The C literals `SETTING_ON` / `SETTING_OFF` of setting.h. -/
def SETTING_ON : String := "on"

def SETTING_OFF : String := "off"

/-- The settings storage: the `settings->values` array indexed by id. -/
def SettingStore : Type := SettingId → Setting

/-- The default settings table built by `settings_init` (setting.c), before
any configuration file is read.  The `savepath` default is the current
directory and the `cl.sortfield` default is `attr_name(ATTR_CALLINDEX)`;
both come from outside setting.c and are passed in as arguments here. -/
def settings_init_defaults (curdir : String) (attr_name_callindex : String) :
    SettingStore := fun id =>
  match id with
  | SETTING_BACKGROUND => setting_enum_new "background" "dark" "dark,default"
  | SETTING_COLORMODE => setting_enum_new "colormode" "request" "request,cseq,callid"
  | SETTING_STX => setting_bool_new "syntax" SETTING_ON
  | SETTING_STX_TAG => setting_bool_new "syntax.tag" SETTING_OFF
  | SETTING_STX_BRANCH => setting_bool_new "syntax.branch" SETTING_OFF
  | SETTING_ALTKEY_HINT => setting_bool_new "hintkeyalt" SETTING_OFF
  | SETTING_EXITPROMPT => setting_bool_new "exitprompt" SETTING_ON
  | SETTING_CAPTURE_LIMIT => setting_number_new "capture.limit" "20000"
  | SETTING_CAPTURE_DEVICE => setting_string_new "capture.device" "any"
  | SETTING_CAPTURE_OUTFILE => setting_string_new "capture.outfile" ""
  | SETTING_CAPTURE_KEYFILE => setting_string_new "capture.keyfile" ""
  | SETTING_CAPTURE_TLSSERVER => setting_string_new "capture.tlsserver" ""
  | SETTING_CAPTURE_RTP => setting_bool_new "capture.rtp" SETTING_OFF
  | SETTING_CAPTURE_PACKET_IP => setting_bool_new "capture.packet.ip" SETTING_ON
  | SETTING_CAPTURE_PACKET_UDP => setting_bool_new "capture.packet.udp" SETTING_ON
  | SETTING_CAPTURE_PACKET_TCP => setting_bool_new "capture.packet.tcp" SETTING_ON
  | SETTING_CAPTURE_PACKET_TLS => setting_bool_new "capture.packet.tls" SETTING_OFF
  | SETTING_CAPTURE_PACKET_HEP => setting_bool_new "capture.packet.hep" SETTING_OFF
  | SETTING_CAPTURE_PACKET_WS => setting_bool_new "capture.packet.ws" SETTING_OFF
  | SETTING_CAPTURE_PACKET_SIP => setting_bool_new "capture.packet.sip" SETTING_ON
  | SETTING_CAPTURE_PACKET_SDP => setting_bool_new "capture.packet.sdp" SETTING_ON
  | SETTING_CAPTURE_PACKET_RTP => setting_bool_new "capture.packet.rtp" SETTING_ON
  | SETTING_CAPTURE_PACKET_RTCP => setting_bool_new "capture.packet.rtcp" SETTING_ON
  | SETTING_CAPTURE_STORAGE => setting_enum_new "capture.storage" "memory" "none,memory"
  | SETTING_CAPTURE_ROTATE => setting_bool_new "capture.rotate" SETTING_OFF
  | SETTING_SIP_NOINCOMPLETE => setting_bool_new "sip.noincomplete" SETTING_ON
  | SETTING_SIP_HEADER_X_CID => setting_string_new "sip.xcid" "X-Call-ID|X-CID"
  | SETTING_SIP_CALLS => setting_bool_new "sip.calls" SETTING_OFF
  | SETTING_SAVEPATH => setting_string_new "savepath" curdir
  | SETTING_DISPLAY_ALIAS => setting_bool_new "displayalias" SETTING_OFF
  | SETTING_CL_SCROLLSTEP => setting_number_new "cl.scrollstep" "4"
  | SETTING_CL_COLORATTR => setting_bool_new "cl.colorattr" SETTING_ON
  | SETTING_CL_AUTOSCROLL => setting_bool_new "cl.autoscroll" SETTING_OFF
  | SETTING_CL_SORTFIELD => setting_string_new "cl.sortfield" attr_name_callindex
  | SETTING_CL_SORTORDER => setting_string_new "cl.sortorder" "asc"
  | SETTING_CL_FIXEDCOLS => setting_number_new "cl.fixedcols" "2"
  | SETTING_CL_COL_INDEX_POS => setting_number_new "cl.column.index.pos" "0"
  | SETTING_CL_COL_INDEX_WIDTH => setting_number_new "cl.column.index.width" "4"
  | SETTING_CL_COL_SIPFROM_POS => setting_number_new "cl.column.sipfrom.pos" "2"
  | SETTING_CL_COL_SIPFROM_WIDTH => setting_number_new "cl.column.sipfrom.width" "25"
  | SETTING_CL_COL_SIPFROMUSER_POS => setting_number_new "cl.column.sipfromuser.pos" "-1"
  | SETTING_CL_COL_SIPFROMUSER_WIDTH => setting_number_new "cl.column.sipfromuser.width" "20"
  | SETTING_CL_COL_SIPTO_POS => setting_number_new "cl.column.sipto.pos" "3"
  | SETTING_CL_COL_SIPTO_WIDTH => setting_number_new "cl.column.sipto.width" "25"
  | SETTING_CL_COL_SIPTOUSER_POS => setting_number_new "cl.column.siptouser.pos" "-1"
  | SETTING_CL_COL_SIPTOUSER_WIDTH => setting_number_new "cl.column.siptouser.width" "20"
  | SETTING_CL_COL_SRC_POS => setting_number_new "cl.column.src.pos" "5"
  | SETTING_CL_COL_SRC_WIDTH => setting_number_new "cl.column.src.width" "22"
  | SETTING_CL_COL_DST_POS => setting_number_new "cl.column.dst.pos" "6"
  | SETTING_CL_COL_DST_WIDTH => setting_number_new "cl.column.dst.width" "22"
  | SETTING_CL_COL_CALLID_POS => setting_number_new "cl.column.callid.pos" "-1"
  | SETTING_CL_COL_CALLID_WIDTH => setting_number_new "cl.column.callid.width" "50"
  | SETTING_CL_COL_XCALLID_POS => setting_number_new "cl.column.xcallid.pos" "-1"
  | SETTING_CL_COL_XCALLID_WIDTH => setting_number_new "cl.column.xcallid.width" "50"
  | SETTING_CL_COL_DATE_POS => setting_number_new "cl.column.date.pos" "-1"
  | SETTING_CL_COL_DATE_WIDTH => setting_number_new "cl.column.date.width" "10"
  | SETTING_CL_COL_TIME_POS => setting_number_new "cl.column.time.pos" "-1"
  | SETTING_CL_COL_TIME_WIDTH => setting_number_new "cl.column.time.width" "8"
  | SETTING_CL_COL_METHOD_POS => setting_number_new "cl.column.method.pos" "1"
  | SETTING_CL_COL_METHOD_WIDTH => setting_number_new "cl.column.method.width" "10"
  | SETTING_CL_COL_TRANSPORT_POS => setting_number_new "cl.column.transport.pos" "-1"
  | SETTING_CL_COL_TRANSPORT_WIDTH => setting_number_new "cl.column.transport.width" "3"
  | SETTING_CL_COL_MSGCNT_POS => setting_number_new "cl.column.msgcnt.pos" "4"
  | SETTING_CL_COL_MSGCNT_WIDTH => setting_number_new "cl.column.msgcnt.width" "5"
  | SETTING_CL_COL_CALLSTATE_POS => setting_number_new "cl.column.state.pos" "7"
  | SETTING_CL_COL_CALLSTATE_WIDTH => setting_number_new "cl.column.state.width" "12"
  | SETTING_CL_COL_CONVDUR_POS => setting_number_new "cl.column.convdur.pos" "-1"
  | SETTING_CL_COL_CONVDUR_WIDTH => setting_number_new "cl.column.convdur.width" "7"
  | SETTING_CL_COL_TOTALDUR_POS => setting_number_new "cl.column.totaldur.pos" "-1"
  | SETTING_CL_COL_TOTALDUR_WIDTH => setting_number_new "cl.column.totaldur.width" "8"
  | SETTING_CL_COL_REASON_TXT_POS => setting_number_new "cl.column.reason.pos" "-1"
  | SETTING_CL_COL_REASON_TXT_WIDTH => setting_number_new "cl.column.reason.width" "25"
  | SETTING_CL_COL_WARNING_POS => setting_number_new "cl.column.warning.pos" "-1"
  | SETTING_CL_COL_WARNING_WIDTH => setting_number_new "cl.column.warning.width" "4"
  | SETTING_CF_FORCERAW => setting_bool_new "cf.forceraw" SETTING_ON
  | SETTING_CF_RAWMINWIDTH => setting_number_new "cf.rawminwidth" "40"
  | SETTING_CF_RAWFIXEDWIDTH => setting_number_new "cf.rawfixedwidth" ""
  | SETTING_CF_SPLITCALLID => setting_bool_new "cf.splitcallid" SETTING_OFF
  | SETTING_CF_HIGHTLIGHT => setting_enum_new "cf.highlight" "bold" "bold,reverse,reversebold"
  | SETTING_CF_SCROLLSTEP => setting_number_new "cf.scrollstep" "4"
  | SETTING_CF_LOCALHIGHLIGHT => setting_bool_new "cf.localhighlight" SETTING_ON
  | SETTING_CF_SDP_INFO => setting_enum_new "cf.sdpinfo" SETTING_OFF "off,first,full,compressed"
  | SETTING_CF_MEDIA => setting_bool_new "cf.media" SETTING_ON
  | SETTING_CF_ONLYMEDIA => setting_bool_new "cf.onlymedia" SETTING_OFF
  | SETTING_CF_DELTA => setting_bool_new "cf.deltatime" SETTING_ON
  | SETTING_CF_HIDEDUPLICATE => setting_bool_new "cf.hideduplicate" SETTING_OFF
  | SETTING_CR_SCROLLSTEP => setting_number_new "cr.scrollstep" "10"
  | SETTING_CR_NON_ASCII => setting_string_new "cr.nonascii" "."
  | SETTING_FILTER_PAYLOAD => setting_string_new "filter.payload" ""
  | SETTING_FILTER_METHODS =>
      setting_string_new "filter.methods"
        "REGISTER,INVITE,SUBSCRIBE,NOTIFY,OPTIONS,PUBLISH,MESSAGE,INFO,REFER,UPDATE"
  | SETTING_HEP_SEND => setting_bool_new "eep.send" SETTING_OFF
  | SETTING_HEP_SEND_VER => setting_number_new "eep.send.version" "3"
  | SETTING_HEP_SEND_ADDR => setting_string_new "eep.send.address" "127.0.0.1"
  | SETTING_HEP_SEND_PORT => setting_number_new "eep.send.port" "9060"
  | SETTING_HEP_SEND_PASS => setting_string_new "eep.send.pass" ""
  | SETTING_HEP_SEND_ID => setting_number_new "eep.send.id" "2000"
  | SETTING_HEP_LISTEN => setting_bool_new "eep.listen" SETTING_OFF
  | SETTING_HEP_LISTEN_VER => setting_string_new "eep.listen.version" "3"
  | SETTING_HEP_LISTEN_ADDR => setting_string_new "eep.listen.address" "0.0.0.0"
  | SETTING_HEP_LISTEN_PORT => setting_number_new "eep.listen.port" "9060"
  | SETTING_HEP_LISTEN_PASS => setting_string_new "eep.listen.pass" ""
  | SETTING_HEP_LISTEN_UUID => setting_bool_new "eep.listen.uuid" SETTING_OFF

/-- `setting_has_value` of setting.c: string comparison of the stored value
with the given value (the stored setting always exists in our total map). -/
def setting_has_value (s : SettingStore) (id : SettingId) (value : String) : Bool :=
  (s id).value == value

/-- `setting_enabled` of setting.c: the stored value is `"on"` or `"yes"`. -/
def setting_enabled (s : SettingStore) (id : SettingId) : Bool :=
  setting_has_value s id "on" || setting_has_value s id "yes"

/-- `setting_disabled` of setting.c: the stored value is `"off"` or `"no"`. -/
def setting_disabled (s : SettingStore) (id : SettingId) : Bool :=
  setting_has_value s id "off" || setting_has_value s id "no"

/-- `setting_set_value` of setting.c: replace the stored value (the
`SETTING_MAX_LEN` overflow exit is not modelled; all values written by the
functions under study are short).  A `NULL` value leaves the zeroed buffer,
i.e. the empty string. -/
def setting_set_value (s : SettingStore) (id : SettingId) (value : Option String) :
    SettingStore := fun i =>
  if i = id then { s id with value := value.getD "" } else s i

/-- `setting_enum_next` of setting.c: next entry of the value list after the
given value, wrapping to the first entry past the end; `none` when the
setting is not enum-format or the value does not occur. -/
def setting_enum_next (s : SettingStore) (id : SettingId) (value : Option String) :
    Option String :=
  let sett := s id
  if sett.fmt ≠ SETTING_FMT_ENUM then none
  else if sett.valuelist = [] then none
  else
    match value with
    | none => sett.valuelist.head?
    | some v =>
        match sett.valuelist.findIdx? (fun x => x == v) with
        | none => none
        | some i => if h : i + 1 < sett.valuelist.length
                    then some (sett.valuelist.get ⟨i + 1, h⟩)
                    else sett.valuelist.head?

/-- `setting_toggle` of setting.c: boolean settings flip between `"on"` and
`"off"` through `setting_enabled`; enum settings advance to the next valid
value; string and number settings are untouched. -/
def setting_toggle (s : SettingStore) (id : SettingId) : SettingStore :=
  match (s id).fmt with
  | SETTING_FMT_BOOLEAN =>
      if setting_enabled s id
      then setting_set_value s id (some SETTING_OFF)
      else setting_set_value s id (some SETTING_ON)
  | SETTING_FMT_ENUM => setting_set_value s id (setting_enum_next s id (some (s id).value))
  | _ => s

/-- The file-reading tail of `settings_init` (setting.c): the ordered list of
configuration files passed to `setting_read_file`, as a function of the
`use_defaults` option, the `SNGREPRC` environment variable, the home
directory and the `-F` options file. -/
def settings_init_files (use_defaults : Bool) (sngreprc : Option String)
    (homedir : Option String) (options_file : Option String) : List String :=
  (if use_defaults then []
   else
    ["/etc/sngreprc", "/usr/local/etc/sngreprc"] ++
      (match sngreprc with
       | some f => [f]
       | none =>
          match homedir with
          | some h => [h ++ "/.sngreprc"]
          | none => [])) ++
  (match options_file with
   | some f => [f]
   | none => [])

/-! ## Packet parser dispatch (src/parser/parser.c)

`GByteArray` buffers and `Packet` objects are abstract type parameters here;
a dissector's `dissect` callback (possibly `NULL`) maps a packet and a
buffer to the remaining buffer or `none`. -/

/-- The child loop of `packet_parser_next_dissector`: call each subdissector
in registration order on the running buffer; a child with no `dissect`
callback is skipped; when a child returns `NULL` the loop breaks and the
`NULL` buffer is returned; when children are exhausted the remaining buffer
is returned. -/
def next_dissector_loop {π β : Type} (packet : π) :
    List (Option (π → β → Option β)) → β → Option β
  | [], data => some data
  | none :: rest, data => next_dissector_loop packet rest data
  | some f :: rest, data =>
      match f packet data with
      | none => none
      | some d2 => next_dissector_loop packet rest d2

/-- `packet_parser_next_dissector` (parser.c): `NULL` data needs no more
dissection; otherwise run the child loop of the current tree node. -/
def packet_parser_next_dissector {π β : Type} (packet : π)
    (children : List (Option (π → β → Option β))) (data : Option β) : Option β :=
  match data with
  | none => none
  | some d => next_dissector_loop packet children d

/-! ## Dissector tree construction (src/parser/parser.c) -/

/-- `enum PacketProtoId` members reached by `packet_parser_dissector_init`. -/
inductive ProtoId where
  | PACKET_LINK
  | PACKET_IP
  | PACKET_UDP
  | PACKET_TCP
  | PACKET_SIP
  | PACKET_SDP
  | PACKET_RTP
  | PACKET_RTCP
  | PACKET_HEP
  | PACKET_TLS
  | PACKET_WS
  deriving DecidableEq, Repr

open ProtoId

/-- The `switch (id)` of `packet_parser_dissector_init`: whether the
constructor call produces a dissector instance for this protocol under the
given settings.  `PACKET_LINK` is unconditional; each other handled
protocol requires its `capture.packet.*` setting to be enabled; an
unhandled id falls into the `default` branch and yields no instance
(`PACKET_WS` has no case in the switch). -/
def dissector_constructible (s : SettingStore) : ProtoId → Bool
  | PACKET_LINK => true
  | PACKET_IP => setting_enabled s SETTING_CAPTURE_PACKET_IP
  | PACKET_UDP => setting_enabled s SETTING_CAPTURE_PACKET_UDP
  | PACKET_TCP => setting_enabled s SETTING_CAPTURE_PACKET_TCP
  | PACKET_SIP => setting_enabled s SETTING_CAPTURE_PACKET_SIP
  | PACKET_SDP => setting_enabled s SETTING_CAPTURE_PACKET_SDP
  | PACKET_RTP => setting_enabled s SETTING_CAPTURE_PACKET_RTP
  | PACKET_RTCP => setting_enabled s SETTING_CAPTURE_PACKET_RTCP
  | PACKET_HEP => setting_enabled s SETTING_CAPTURE_PACKET_HEP
  | PACKET_TLS => setting_enabled s SETTING_CAPTURE_PACKET_TLS
  | PACKET_WS => false

/-- The parser state touched by `packet_parser_dissector_init`:
`dissectors` models the non-`NULL` entries of the `parser->dissectors`
instance array, and `created` records, in order, every constructor call
that produced a new instance (so instance sharing is observable). -/
structure ParserState where
  dissectors : List ProtoId
  created : List ProtoId
  deriving DecidableEq, Repr

/-- A node of the dissector tree (`GNode` labelled by the dissector's
protocol id, with its appended children in order). -/
inductive DissectorNode where
  | node (id : ProtoId) (children : List DissectorNode)

/-- Protocol id at a tree node. -/
def DissectorNode.protoId : DissectorNode → ProtoId
  | .node id _ => id

/-- Children of a tree node. -/
def DissectorNode.subnodes : DissectorNode → List DissectorNode
  | .node _ c => c

/-- The subdissector loop at the end of `packet_parser_dissector_init`,
parameterized by the recursive initialization call: initialize each child
id in registration order, threading the parser state; children yielding no
node (disabled protocols) contribute nothing. -/
def dissector_init_children
    (f : ProtoId → ParserState → Option DissectorNode × ParserState) :
    List ProtoId → ParserState → List DissectorNode × ParserState
  | [], st => ([], st)
  | cid :: rest, st =>
      let r1 := f cid st
      let r2 := dissector_init_children f rest r1.2
      (match r1.1 with
       | none => r2.1
       | some nd => nd :: r2.1, r2.2)

/-- `packet_parser_dissector_init` (parser.c): reuse the already-created
instance for `id` if the instance array holds one, else run the constructor
switch (creating an instance only for enabled protocols); with an instance
at hand, append a new tree node for `id` and recursively initialize every
registered subdissector id under it; without one, return `NULL` leaving
parser state and tree untouched.  `subdissectors` maps each protocol to the
child protocol ids its dissector registers; `fuel` bounds the recursion
depth (the C recursion terminates because the registration graph is
acyclic). -/
def packet_parser_dissector_init (s : SettingStore)
    (subdissectors : ProtoId → List ProtoId) :
    Nat → ProtoId → ParserState → Option DissectorNode × ParserState
  | 0, _, st => (none, st)
  | Nat.succ fuel, id, st =>
      if st.dissectors.contains id then
        let r := dissector_init_children
          (fun cid st2 => packet_parser_dissector_init s subdissectors fuel cid st2)
          (subdissectors id) st
        (some (.node id r.1), r.2)
      else if dissector_constructible s id then
        let st1 : ParserState := ⟨id :: st.dissectors, st.created ++ [id]⟩
        let r := dissector_init_children
          (fun cid st2 => packet_parser_dissector_init s subdissectors fuel cid st2)
          (subdissectors id) st1
        (some (.node id r.1), r.2)
      else (none, st)

/-! ## Message helpers (src/storage/message.c) -/

/-- `struct _Address` (capture/address.h): textual ip and port. -/
structure Address where
  ip : String
  port : Nat
  deriving DecidableEq, Repr

/-- Modelled from the spec: `addressport_equals` lives in address.c, which
is not under src/; address.h documents it as "check if two address are
equal (including port)". -/
def addressport_equals (a b : Address) : Bool :=
  a.ip == b.ip && a.port == b.port

/-- `strcasecmp(a, b) == 0`: ASCII case-insensitive string equality,
comparing the case-folded character sequences. -/
def strcasecmp_eq (a b : String) : Bool :=
  a.toList.map Char.toLower == b.toList.map Char.toLower

/-- The per-message data read by the `msg_is_retrans` scan: the packet's
source and destination addresses and the SIP payload text.  Messages of a
call are modelled as a list, a message's identity being its position, so
the pointer test `prev == msg` becomes an index comparison. -/
structure RetransMsg where
  src : Address
  dst : Address
  payload : String
  deriving DecidableEq, Repr

/-- The per-message test of the `msg_is_retrans` loop body: source and
destination addresses equal (ports included) and payloads equal up to
case. -/
def retrans_match (m prev : RetransMsg) : Bool :=
  addressport_equals prev.src m.src &&
  addressport_equals prev.dst m.dst &&
  strcasecmp_eq m.payload prev.payload

/-- The backwards loop of `msg_is_retrans`: `scan (i+1)` examines list
position `i` and counts down; position `j` (the message itself) is
skipped; the first position whose source, destination and (case
insensitively) payload all match is returned. -/
def msg_is_retrans_scan (msgs : List RetransMsg) (m : RetransMsg) (j : Nat) :
    Nat → Option Nat
  | 0 => none
  | i + 1 =>
      match msgs.get? i with
      | none => msg_is_retrans_scan msgs m j i
      | some prev =>
          if i = j then msg_is_retrans_scan msgs m j i
          else if retrans_match m prev
          then some i
          else msg_is_retrans_scan msgs m j i

/-- `msg_is_retrans` (storage/message.c) on the message at position `j` of
its call's message list: scan all other messages from the newest backwards
and return the first whose addresses and payload match, `none` when no
other message matches. -/
def msg_is_retrans (msgs : List RetransMsg) (j : Nat) : Option Nat :=
  match msgs.get? j with
  | none => none
  | some m => msg_is_retrans_scan msgs m j msgs.length

/-- The per-message data read by `msg_is_initial_transaction`: the SIP
method or status code (`packet_sip_method`, requests are below 100), the
CSeq number, the packet addresses, and the packet-level initial-transaction
flag `packet_sip_initial_transaction` assigned by the SIP dissector. -/
structure SipDirMsg where
  method : Nat
  cseq : Nat
  src : Address
  dst : Address
  init_flag : Bool
  deriving DecidableEq, Repr

/-- `msg_is_request` (storage/message.c): the method enum value is below
100 (responses store their 3-digit status). -/
def sipdir_is_request (m : SipDirMsg) : Bool :=
  m.method < 100

/-- The forward loop of `msg_is_initial_transaction`, starting at position
`i` of the call's message list, for the message `m` sitting at position
`j`.  Non-requests are skipped before the identity test, so for a response
`m` the loop never breaks at `m` itself; reaching `m` as a request breaks
the loop; a same-CSeq request matching `m`'s source (requests) or whose
destination matches `m`'s source (responses) ends the loop with that
request's packet flag; exhausting the list yields `m`'s own packet flag. -/
def msg_is_initial_transaction_scan (m : SipDirMsg) (j : Nat) :
    List SipDirMsg → Nat → Bool
  | [], _ => m.init_flag
  | cm :: rest, i =>
      if ¬ sipdir_is_request cm then msg_is_initial_transaction_scan m j rest (i + 1)
      else if i = j then m.init_flag
      else if m.cseq ≠ cm.cseq then msg_is_initial_transaction_scan m j rest (i + 1)
      else if sipdir_is_request m then
        if ¬ addressport_equals m.src cm.src
        then msg_is_initial_transaction_scan m j rest (i + 1)
        else cm.init_flag
      else
        if ¬ addressport_equals m.src cm.dst
        then msg_is_initial_transaction_scan m j rest (i + 1)
        else cm.init_flag

/-- `msg_is_initial_transaction` (storage/message.c) on the message at
position `j` of its call's message list: run the loop over the whole list,
index 0 first. -/
def msg_is_initial_transaction (msgs : List SipDirMsg) (j : Nat) : Bool :=
  match msgs.get? j with
  | none => false
  | some m => msg_is_initial_transaction_scan m j msgs 0

/-- A message's lazy attribute cache (`msg->attributes`, a string-keyed
GLib hash table) as a map from attribute name to cached value. -/
def AttrCache : Type := String → Option String

/-- `msg_set_cached_attribute` (storage/message.c): look up the previous
value under the attribute's name; only when an entry exists and its value
differs from the new one is the entry removed and the new value inserted;
otherwise the table is left untouched. -/
def msg_set_cached_attribute (c : AttrCache) (name value : String) : AttrCache :=
  match c name with
  | none => c
  | some prev =>
      if prev ≠ value then fun k => if k = name then some value else c k
      else c

/-- `msg_get_cached_attribute` (storage/message.c): plain lookup. -/
def msg_get_cached_attribute (c : AttrCache) (name : String) : Option String :=
  c name

/-! ## HEP capture endpoints (src/capture/capture_hep.c) -/

/-- `struct _CaptureHepUrl`: socket protocol, host and port. -/
structure CaptureHepUrl where
  proto : String
  host : String
  port : Int
  deriving DecidableEq, Repr

/-- The `CAPTURE_HEP_ERROR_*` conditions raised by capture_hep.c, together
with the failures propagated from the GLib socket layer. -/
inductive HepError where
  | url_parse_args (url : String)
  | url_parse_proto (url : String) (proto : String)
  | version (v : Int)
  | addr_parse (host : String) (port : Int)
  | socket_new
  | bind_fail
  | connect_fail
  deriving DecidableEq, Repr

/-- C `atoi`: skip leading blanks, read an optional sign and then the
longest leading digit run; 0 when no digits follow. -/
def c_atoi (s : String) : Int :=
  let cs := s.toList.dropWhile (fun c => c = ' ' || c = '\t' || c = '\n')
  let signed : Bool × List Char :=
    match cs with
    | '-' :: rest => (true, rest)
    | '+' :: rest => (false, rest)
    | rest => (false, rest)
  let digits := signed.2.takeWhile Char.isDigit
  let mag : Nat := digits.foldl (fun acc c => acc * 10 + (c.toNat - 48)) 0
  if signed.1 then -(mag : Int) else (mag : Int)

/-- Split a character sequence on a separator, keeping empty pieces. -/
def split_sep_chars (sep : Char) : List Char → List Char → List (List Char)
  | [], acc => [acc.reverse]
  | c :: rest, acc =>
      if c = sep then acc.reverse :: split_sep_chars sep rest []
      else split_sep_chars sep rest (c :: acc)

/-- Split a string on a separator character (`g_strsplit` with no token
limit, except that a lone empty string is produced for empty input). -/
def split_on_char (sep : Char) (s : String) : List String :=
  (split_sep_chars sep s.toList []).map String.mk

/-- `g_strsplit(url, ":", 3)`: split on `":"` into at most three tokens,
the third keeping any further separators; the empty string yields no
tokens. -/
def g_strsplit3 (s : String) : List String :=
  if s = "" then []
  else
    match split_sep_chars ':' s.toList [] with
    | p0 :: p1 :: p2 :: rest =>
        [String.mk p0, String.mk p1, String.mk (List.intercalate [':'] (p2 :: rest))]
    | parts => parts.map String.mk

/-- `capture_hep_parse_url` (capture_hep.c): require exactly three
`:`-separated tokens and the `udp` scheme; host is the second token, port
the `atoi` of the third. -/
def capture_hep_parse_url (url : String) : Except HepError CaptureHepUrl :=
  let tokens := g_strsplit3 url
  if tokens.length ≠ 3 then .error (.url_parse_args url)
  else if tokens.getD 0 "" = "udp" then
    .ok ⟨"udp", tokens.getD 1 "", c_atoi (tokens.getD 2 "")⟩
  else .error (.url_parse_proto url (tokens.getD 0 ""))

/-- Socket-layer operations issued by a HEP endpoint constructor, in
order. -/
inductive SockOp where
  | create
  | bind
  | connect
  deriving DecidableEq, Repr

/-- Outcomes of the external GLib calls a constructor makes: address
string parsing, socket creation, and the bind (input) or connect (output)
call. -/
structure SocketEnv where
  addr_ok : Bool
  socket_ok : Bool
  io_ok : Bool
  deriving DecidableEq, Repr

/-- `capture_input_hep` (capture_hep.c): version and password come from the
`eep.listen.*` settings; an explicit URL is parsed (errors propagate
before anything else), otherwise listen address and port come from
settings; versions other than 2 and 3 raise `CAPTURE_HEP_ERROR_VERSION`
before any socket is created; then the listen address is parsed, a UDP
socket created and bound.  The second component lists the socket
operations performed. -/
def capture_input_hep (ver : Int) (url : Option String)
    (listen_host : String) (listen_port : Int) (env : SocketEnv) :
    Except HepError CaptureHepUrl × List SockOp :=
  let parsed : Except HepError CaptureHepUrl :=
    match url with
    | some u => capture_hep_parse_url u
    | none => .ok ⟨"udp", listen_host, listen_port⟩
  match parsed with
  | .error e => (.error e, [])
  | .ok cu =>
      if ver ≠ 2 ∧ ver ≠ 3 then (.error (.version ver), [])
      else if ¬ env.addr_ok then (.error (.addr_parse cu.host cu.port), [])
      else if ¬ env.socket_ok then (.error .socket_new, [.create])
      else if ¬ env.io_ok then (.error .bind_fail, [.create, .bind])
      else (.ok cu, [.create, .bind])

/-- `capture_output_hep` (capture_hep.c): same shape as the input
constructor with the `eep.send.*` settings, connecting instead of
binding. -/
def capture_output_hep (ver : Int) (url : Option String)
    (send_host : String) (send_port : Int) (env : SocketEnv) :
    Except HepError CaptureHepUrl × List SockOp :=
  let parsed : Except HepError CaptureHepUrl :=
    match url with
    | some u => capture_hep_parse_url u
    | none => .ok ⟨"udp", send_host, send_port⟩
  match parsed with
  | .error e => (.error e, [])
  | .ok cu =>
      if ver ≠ 2 ∧ ver ≠ 3 then (.error (.version ver), [])
      else if ¬ env.addr_ok then (.error (.addr_parse cu.host cu.port), [])
      else if ¬ env.socket_ok then (.error .socket_new, [.create])
      else if ¬ env.io_ok then (.error .connect_fail, [.create, .connect])
      else (.ok cu, [.create, .connect])

/-! ## HEP output codec (src/capture/capture_hep.c)

The writer `capture_output_hep_write` serializes through the packed
structs of capture_hep.h, which is not under src/; the byte layout below
is modelled from the spec's wire format (§4.7): 6-byte chunk headers
`vendor(u16) type(u16) length(u16)` in network byte order, chunk length
including the header.  The capture-id chunk carries the 16-bit value the
writer stores (`g_htons(hep->id)`). -/

/-- Big-endian 16-bit serialization (`g_htons`). -/
def u16be (n : Nat) : List Nat :=
  [n / 256 % 256, n % 256]

/-- Big-endian 32-bit serialization (`g_htonl`). -/
def u32be (n : Nat) : List Nat :=
  [n / 16777216 % 256, n / 65536 % 256, n / 256 % 256, n % 256]

/-- A TLV chunk header: vendor id 0, type id, total chunk length. -/
def hep_chunk_header (type_id length : Nat) : List Nat :=
  u16be 0 ++ u16be type_id ++ u16be length

/-- `AF_INET` on the target platform. -/
def AF_INET : Nat := 2

/-- `AF_INET6` on the target platform. -/
def AF_INET6 : Nat := 10

/-- The fields of `CaptureOutputHep` read by the writer: configured
protocol version, capture id (`guint16`) and optional authorization key
bytes. -/
structure HepOutputCfg where
  version : Int
  id : Nat
  password : Option (List Nat)
  deriving DecidableEq, Repr

/-- The packet data the writer serializes: the `PacketIpData` fields
(version, transport protocol, source and destination address — the
`inet_pton` byte form of the textual ip), the `PacketUdpData` ports, the
first frame's timestamp, and the SIP payload bytes. -/
structure HepPacketData where
  ip_version : Nat
  ip_proto : Nat
  srcip : List Nat
  dstip : List Nat
  sport : Nat
  dport : Nat
  tsec : Nat
  tusec : Nat
  payload : List Nat
  deriving DecidableEq, Repr

/-- Size of `CaptureHepGeneric` under the modelled layout: 6-byte control
header plus the ip-family, ip-protocol, ports, timestamp, protocol-type
and capture-id chunks. -/
def hep_generic_size : Nat := 71

/-- The writer's `ip_len` local: combined size of the two address chunks
(zero when the ip version is neither 4 nor 6, in which case no address
chunk is emitted). -/
def hep_ip_len (p : HepPacketData) : Nat :=
  if p.ip_version = 4 then 20 else if p.ip_version = 6 then 44 else 0

/-- Contribution of the authorization-key chunk to the writer's
`total_len`. -/
def hep_auth_len (hep : HepOutputCfg) : Nat :=
  match hep.password with
  | none => 0
  | some pw => 6 + pw.length

/-- The writer's `total_len` local: generic block, payload bytes, address
chunks, payload chunk header and (when configured) authorization chunk. -/
def hep_total_len (hep : HepOutputCfg) (p : HepPacketData) : Nat :=
  hep_generic_size + p.payload.length + hep_ip_len p + 6 + hep_auth_len hep

/-- `capture_output_hep_write` (capture_hep.c): build the HEP3 buffer sent
on the wire — the banner and total length, the generic chunk block, the
address chunks of the packet's ip version, the authorization chunk when a
password is configured, and the payload chunk.  The configured version is
never consulted.  All multi-byte fields are big-endian. -/
def capture_output_hep_write (hep : HepOutputCfg) (p : HepPacketData) : List Nat :=
  [0x48, 0x45, 0x50, 0x33] ++ u16be (hep_total_len hep p) ++
  hep_chunk_header 0x0001 7 ++ [if p.ip_version = 4 then AF_INET else AF_INET6] ++
  hep_chunk_header 0x0002 7 ++ [p.ip_proto % 256] ++
  hep_chunk_header 0x0007 8 ++ u16be p.sport ++
  hep_chunk_header 0x0008 8 ++ u16be p.dport ++
  hep_chunk_header 0x0009 10 ++ u32be p.tsec ++
  hep_chunk_header 0x000a 10 ++ u32be p.tusec ++
  hep_chunk_header 0x000b 7 ++ [1] ++
  hep_chunk_header 0x000c 8 ++ u16be hep.id ++
  (if p.ip_version = 4 then
    hep_chunk_header 0x0003 10 ++ p.srcip ++ hep_chunk_header 0x0004 10 ++ p.dstip
   else if p.ip_version = 6 then
    hep_chunk_header 0x0005 22 ++ p.srcip ++ hep_chunk_header 0x0006 22 ++ p.dstip
   else []) ++
  (match hep.password with
   | none => []
   | some pw => hep_chunk_header 0x000e (6 + pw.length) ++ pw) ++
  hep_chunk_header 0x000f (6 + p.payload.length) ++ p.payload

/-- Modelled from the spec: the HEP v3 TLV walk of the decoder
(packet_hep.c is not under src/).  Split the byte stream after the control
header into `(type id, data)` chunks, each chunk's declared length
covering its 6-byte header; fail on a malformed chunk. -/
def hep_parse_chunks (bytes : List Nat) : Option (List (Nat × List Nat)) :=
  match bytes with
  | [] => some []
  | _v1 :: _v2 :: t1 :: t2 :: l1 :: l2 :: rest =>
      let tid := t1 * 256 + t2
      let len := l1 * 256 + l2
      if 6 ≤ len ∧ len - 6 ≤ rest.length then
        match hep_parse_chunks (rest.drop (len - 6)) with
        | none => none
        | some cs => some ((tid, rest.take (len - 6)) :: cs)
      else none
  | _ => none
termination_by bytes.length
decreasing_by simp; omega

/-- Data of the first chunk with the given type id. -/
def hep_chunk_data (cs : List (Nat × List Nat)) (tid : Nat) : Option (List Nat) :=
  match cs.find? (fun c => c.1 == tid) with
  | none => none
  | some c => some c.2

/-- The synthetic packet the decoder injects into the HEP parser tree:
ip version, transport protocol, addresses, ports, timestamp and payload
(spec §4.7). -/
structure HepDecodedPacket where
  ip_version : Nat
  ip_proto : Nat
  srcip : List Nat
  dstip : List Nat
  sport : Nat
  dport : Nat
  tsec : Nat
  tusec : Nat
  payload : List Nat
  deriving DecidableEq, Repr

/-- Modelled from the spec: the field-extraction half of the HEP v3
decoder (packet_hep.c is not under src/).  From the parsed chunk list,
read the ip family (deciding which address chunk types apply), protocol,
addresses, ports, timestamp and payload; reject when any is missing. -/
def hep_extract (cs : List (Nat × List Nat)) : Option HepDecodedPacket :=
  match hep_chunk_data cs 0x0001 with
  | some [fam] =>
      let ver := if fam = AF_INET then 4 else 6
      let src_tid := if fam = AF_INET then 0x0003 else 0x0005
      let dst_tid := if fam = AF_INET then 0x0004 else 0x0006
      match hep_chunk_data cs 0x0002, hep_chunk_data cs src_tid,
            hep_chunk_data cs dst_tid, hep_chunk_data cs 0x0007,
            hep_chunk_data cs 0x0008, hep_chunk_data cs 0x0009,
            hep_chunk_data cs 0x000a, hep_chunk_data cs 0x000f with
      | some [proto], some src, some dst, some [s1, s2], some [d1, d2],
        some [a1, a2, a3, a4], some [u1, u2, u3, u4], some payload =>
          some ⟨ver, proto, src, dst, s1 * 256 + s2, d1 * 256 + d2,
                ((a1 * 256 + a2) * 256 + a3) * 256 + a4,
                ((u1 * 256 + u2) * 256 + u3) * 256 + u4, payload⟩
      | _, _, _, _, _, _, _, _ => none
  | _ => none

/-- Modelled from the spec: the HEP v3 decoder (packet_hep.c is not under
src/).  Validate the `"HEP3"` banner and the declared total length against
the received byte count, then walk the chunks and extract the required
fields. -/
def hep_decode_v3 (bytes : List Nat) : Option HepDecodedPacket :=
  match bytes with
  | b0 :: b1 :: b2 :: b3 :: l1 :: l2 :: rest =>
      if (b0 = 0x48 ∧ b1 = 0x45 ∧ b2 = 0x50 ∧ b3 = 0x33) ∧
         l1 * 256 + l2 = bytes.length then
        match hep_parse_chunks rest with
        | none => none
        | some cs => hep_extract cs
      else none
  | _ => none

/-- Modelled from the spec: a HEP v2 buffer carries the fixed-layout v2
header (spec §4.7/§9, deferring to the HEP specification for offsets),
whose first octet is the protocol version, 2.  Only this leading-octet
requirement of v2 well-formedness is needed here. -/
def hep_v2_wellformed (bytes : List Nat) : Bool :=
  match bytes with
  | v :: _ => v == 2
  | [] => false

/-! ## Specification-side definitions used to state the claims -/

mutual
/-- Whether a protocol id labels some node of a dissector (sub)tree. -/
def DissectorNode.mentions (id : ProtoId) : DissectorNode → Bool
  | .node pid children => pid == id || mentions_forest id children
/-- Whether a protocol id labels some node of a list of dissector trees. -/
def mentions_forest (id : ProtoId) : List DissectorNode → Bool
  | [] => false
  | n :: rest => n.mentions id || mentions_forest id rest
end

/-- The condition under which the `msg_is_initial_transaction` loop body
(on a message other than `m` itself) ends the scan at `cm`: `cm` is a
request with `m`'s CSeq number whose source equals `m`'s source (for `m` a
request) or whose destination equals `m`'s source (for `m` a response). -/
def init_trans_match (m cm : SipDirMsg) : Bool :=
  sipdir_is_request cm && m.cseq == cm.cseq &&
  (if sipdir_is_request m then addressport_equals m.src cm.src
   else addressport_equals m.src cm.dst)

/-- Specification-side search: the first message of the list (scanned
forward from index `i`) that the initial-transaction loop would stop at,
given that the message `m` under test sits at position `j`.  When `m` is a
request the search is cut off at position `j`; otherwise the whole list is
searched; position `j` itself never matches. -/
def first_same_cseq_request (m : SipDirMsg) (j : Nat) :
    List SipDirMsg → Nat → Option SipDirMsg
  | [], _ => none
  | cm :: rest, i =>
      if sipdir_is_request m ∧ i = j then none
      else if i ≠ j ∧ init_trans_match m cm then some cm
      else first_same_cseq_request m j rest (i + 1)

/-- Serialization of a list of `(type id, data)` chunks, each with a
6-byte header declaring the header-inclusive length. -/
def hep_serialize_chunks : List (Nat × List Nat) → List Nat
  | [] => []
  | (t, d) :: rest => hep_chunk_header t (6 + d.length) ++ d ++ hep_serialize_chunks rest

/-- The `(type id, data)` chunks the writer emits, in wire order: the
generic block's chunks, the address chunks of the packet's ip version,
the authorization chunk when configured, and the payload chunk. -/
def hep_written_chunks (hep : HepOutputCfg) (p : HepPacketData) :
    List (Nat × List Nat) :=
  [(0x0001, [if p.ip_version = 4 then AF_INET else AF_INET6]),
   (0x0002, [p.ip_proto % 256]),
   (0x0007, u16be p.sport),
   (0x0008, u16be p.dport),
   (0x0009, u32be p.tsec),
   (0x000a, u32be p.tusec),
   (0x000b, [1]),
   (0x000c, u16be hep.id)] ++
  (if p.ip_version = 4 then [(0x0003, p.srcip), (0x0004, p.dstip)]
   else if p.ip_version = 6 then [(0x0005, p.srcip), (0x0006, p.dstip)]
   else []) ++
  (match hep.password with
   | none => []
   | some pw => [(0x000e, pw)]) ++
  [(0x000f, p.payload)]

/-- The synthetic packet §4.7 expects the decoder to extract from an
encoding of `p`. -/
def hep_expected_packet (p : HepPacketData) : HepDecodedPacket :=
  ⟨p.ip_version, p.ip_proto, p.srcip, p.dstip, p.sport, p.dport, p.tsec, p.tusec, p.payload⟩

/-! ## Sample inputs used by witnesses and counterexamples -/

/-- A sample subdissector registration following the spec's dataflow
(§2): link → ip → {udp, tcp} → {sip, rtp, rtcp, tls} → sdp.  The claims
about tree construction hold for every registration; this one only feeds
witnesses. -/
def sample_subdissectors : ProtoId → List ProtoId
  | PACKET_LINK => [PACKET_IP]
  | PACKET_IP => [PACKET_UDP, PACKET_TCP]
  | PACKET_UDP => [PACKET_SIP, PACKET_RTP, PACKET_RTCP]
  | PACKET_TCP => [PACKET_SIP, PACKET_TLS]
  | PACKET_SIP => [PACKET_SDP]
  | PACKET_TLS => [PACKET_SIP]
  | _ => []

/-- The default settings with a plausible current directory and call-index
attribute name. -/
def sample_settings : SettingStore :=
  settings_init_defaults "/tmp" "index"

/-- The default settings after a configuration line
`set capture.packet.ip yes`. -/
def sample_settings_ip_yes : SettingStore :=
  setting_set_value sample_settings SETTING_CAPTURE_PACKET_IP (some "yes")

/-- Two messages of one call: the second is a case-variant retransmission
of the first (same endpoints, payload differing only in case). -/
def c4_msgs : List RetransMsg :=
  [⟨⟨"10.0.0.1", 5060⟩, ⟨"10.0.0.2", 5060⟩, "INVITE sip:b SIP/2.0"⟩,
   ⟨⟨"10.0.0.1", 5060⟩, ⟨"10.0.0.2", 5060⟩, "invite sip:b sip/2.0"⟩]

/-- The second element of `c4_msgs`. -/
def c4_m1 : RetransMsg :=
  ⟨⟨"10.0.0.1", 5060⟩, ⟨"10.0.0.2", 5060⟩, "invite sip:b sip/2.0"⟩

/-- Two same-CSeq INVITE requests from the same source, both carrying a
`true` packet-level initial-transaction flag (a retransmitted initial
INVITE). -/
def c5_msgs : List SipDirMsg :=
  [⟨1, 1, ⟨"10.0.0.1", 5060⟩, ⟨"10.0.0.2", 5060⟩, true⟩,
   ⟨1, 1, ⟨"10.0.0.1", 5060⟩, ⟨"10.0.0.2", 5060⟩, true⟩]

/-- The repeated INVITE of `c5_msgs` (both entries are this message). -/
def c5_m : SipDirMsg :=
  ⟨1, 1, ⟨"10.0.0.1", 5060⟩, ⟨"10.0.0.2", 5060⟩, true⟩

/-- A sample IPv4/UDP/SIP packet for the HEP codec. -/
def sample_hep_packet : HepPacketData :=
  ⟨4, 17, [10, 0, 0, 1], [10, 0, 0, 2], 5060, 5060, 1700000000, 123456,
   [73, 78, 86, 73, 84, 69]⟩

/-- A HEP output configured for version 2, capture id 2000, no password. -/
def sample_hep_cfg_v2 : HepOutputCfg :=
  ⟨2, 2000, none⟩

/-- A HEP output configured for version 3, capture id 2000, with the
authorization key `"hep"`. -/
def sample_hep_cfg_v3 : HepOutputCfg :=
  ⟨3, 2000, some [104, 101, 112]⟩

/-- One step of the dispatch iteration, specification-side: a `none`
buffer stays `none` (the loop has stopped), a child without a `dissect`
callback leaves the buffer alone, and otherwise the buffer is replaced by
the child's returned remainder. -/
def dissect_step {π β : Type} (packet : π) :
    Option β → Option (π → β → Option β) → Option β
  | none, _ => none
  | some d, none => some d
  | some d, some f => f packet d

/-- Per-call postcondition of a tree-construction step, used as the
construction invariant: the state evolves by appending creation events
that are all constructible, `dissectors` stays the reversed creation
list, creations stay duplicate-free, and every protocol mentioned by a
returned subtree has a created instance. -/
def InitStep (s : SettingStore)
    (f : ProtoId → ParserState → Option DissectorNode × ParserState) : Prop :=
  ∀ (id : ProtoId) (st : ParserState),
    st.dissectors = st.created.reverse → st.created.Nodup →
    (∃ new, (f id st).2.created = st.created ++ new ∧
        ∀ i ∈ new, dissector_constructible s i = true) ∧
    (f id st).2.dissectors = (f id st).2.created.reverse ∧
    (f id st).2.created.Nodup ∧
    (∀ t, (f id st).1 = some t → ∀ i, t.mentions i = true → i ∈ (f id st).2.created)

/-! # Theorems -/

/-- **C7.** After `settings_init` with defaults, the value of the
`filter.methods` setting, split on commas, equals as a set — here proved
as a permutation, which is stronger — the ten dialog-creating methods
INVITE, REGISTER, SUBSCRIBE, NOTIFY, OPTIONS, PUBLISH, MESSAGE, INFO,
REFER, UPDATE. -/
theorem filter_methods_default_is_dialog_starters (curdir attr_ci : String) :
    (split_on_char ','
        ((settings_init_defaults curdir attr_ci SETTING_FILTER_METHODS).value)).Perm
      ["INVITE", "REGISTER", "SUBSCRIBE", "NOTIFY", "OPTIONS", "PUBLISH",
       "MESSAGE", "INFO", "REFER", "UPDATE"] := by
  have h : split_on_char ','
      ((settings_init_defaults curdir attr_ci SETTING_FILTER_METHODS).value) =
      ["REGISTER", "INVITE", "SUBSCRIBE", "NOTIFY", "OPTIONS", "PUBLISH",
       "MESSAGE", "INFO", "REFER", "UPDATE"] := rfl
  rw [h]
  decide

/-- **C8.** When configuration files are read (`use_defaults` off) and
`SNGREPRC` is set, `settings_init` reads the file it names in place of
`$HOME/.sngreprc` and never both; the two system-wide files are read in
either case, before the user file (an explicit options file, when given,
is read last in both cases). -/
theorem sngreprc_env_overrides_user_file (f : String) (homedir optfile : Option String) :
    settings_init_files false (some f) homedir optfile =
      ["/etc/sngreprc", "/usr/local/etc/sngreprc", f] ++
        (match optfile with | some o => [o] | none => []) ∧
    settings_init_files false none homedir optfile =
      ["/etc/sngreprc", "/usr/local/etc/sngreprc"] ++
        (match homedir with | some h => [h ++ "/.sngreprc"] | none => []) ++
        (match optfile with | some o => [o] | none => []) := by
  constructor <;> simp [settings_init_files]

/-- **C9.** `msg_set_cached_attribute` leaves the cache entirely unchanged
when it holds no entry for the attribute (so a subsequent get still
returns nothing); entries under other names are never touched; an existing
entry is replaced exactly when the new value differs from the stored
one. -/
theorem attribute_cache_set_semantics (c : AttrCache) (a v : String) :
    (msg_get_cached_attribute c a = none → msg_set_cached_attribute c a v = c) ∧
    (∀ b, b ≠ a → msg_get_cached_attribute (msg_set_cached_attribute c a v) b =
        msg_get_cached_attribute c b) ∧
    (∀ p, msg_get_cached_attribute c a = some p →
        msg_get_cached_attribute (msg_set_cached_attribute c a v) a =
          some (if p = v then p else v)) := by
  refine ⟨?_, ?_, ?_⟩
  · intro h
    unfold msg_get_cached_attribute at h
    unfold msg_set_cached_attribute
    rw [h]
  · intro b hb
    unfold msg_get_cached_attribute msg_set_cached_attribute
    cases hca : c a with
    | none => rfl
    | some prev =>
        by_cases hpv : prev ≠ v
        · simp [hpv, hb]
        · simp [hpv]
  · intro p hp
    unfold msg_get_cached_attribute at hp
    unfold msg_get_cached_attribute msg_set_cached_attribute
    rw [hp]
    by_cases hpv : p = v
    · subst hpv
      simp [hp]
    · simp [hpv]

/-- Witness for C9 at a concrete empty cache: setting an uncached
attribute changes nothing. -/
theorem attribute_cache_set_semantics_witness :
    msg_set_cached_attribute (fun _ => none) "src" "10.0.0.1" = (fun _ => none) :=
  (attribute_cache_set_semantics (fun _ => none) "src" "10.0.0.1").1 rfl

/-- **C10.** For a boolean-format setting whose stored value is exactly
`"on"` or exactly `"off"`, one `setting_toggle` yields the other member of
that pair and a second application restores the original value. -/
theorem bool_setting_toggle_involutive (s : SettingStore) (id : SettingId)
    (hfmt : (s id).fmt = SETTING_FMT_BOOLEAN)
    (hval : (s id).value = "on" ∨ (s id).value = "off") :
    ((setting_toggle s id) id).value =
      (if (s id).value = "on" then "off" else "on") ∧
    ((setting_toggle (setting_toggle s id) id) id).value = (s id).value := by
  rcases hval with hv | hv <;>
    refine ⟨?_, ?_⟩ <;>
      simp [setting_toggle, setting_enabled, setting_has_value, setting_set_value,
            hfmt, hv, SETTING_ON, SETTING_OFF]

/-- Witness for C10 on the default `syntax` setting (boolean, default
`"on"`): toggling twice restores `"on"`. -/
theorem bool_setting_toggle_involutive_witness :
    (sample_settings SETTING_STX).fmt = SETTING_FMT_BOOLEAN ∧
    ((setting_toggle (setting_toggle sample_settings SETTING_STX) SETTING_STX)
        SETTING_STX).value = (sample_settings SETTING_STX).value :=
  ⟨rfl, (bool_setting_toggle_involutive sample_settings SETTING_STX rfl (Or.inl rfl)).2⟩

/-- The dispatch fold absorbs a `none` accumulator: once some child has
consumed the whole buffer, later children are irrelevant. -/
theorem dissect_step_foldl_none {π β : Type} (packet : π)
    (children : List (Option (π → β → Option β))) :
    children.foldl (dissect_step packet) none = none := by
  induction children with
  | nil => rfl
  | cons c rest ih =>
      have h : dissect_step packet none c = none := rfl
      simpa [List.foldl, h] using ih

/-- **C2.** `packet_parser_next_dissector` visits the current node's
children in registration order, replacing the buffer by each child's
returned remainder, stopping as soon as a child returns `none` or the
children are exhausted: it equals the left fold of `dissect_step` over the
children (in the pure model, stopping at `none` and folding an absorbing
`none` are the same function). -/
theorem next_dissector_is_ordered_fold {π β : Type} (packet : π)
    (children : List (Option (π → β → Option β))) (data : Option β) :
    packet_parser_next_dissector packet children data =
      children.foldl (dissect_step packet) data := by
  cases data with
  | none => exact (dissect_step_foldl_none packet children).symm
  | some d =>
      show next_dissector_loop packet children d = _
      induction children generalizing d with
      | nil => rfl
      | cons c rest ih =>
          cases c with
          | none => exact ih d
          | some f =>
              show (match f packet d with
                    | none => none
                    | some d2 => next_dissector_loop packet rest d2) = _
              cases hf : f packet d with
              | none =>
                  simp only [List.foldl]
                  have h : dissect_step packet (some d) (some f) = none := by
                    simp [dissect_step, hf]
                  rw [h]
                  exact (dissect_step_foldl_none packet rest).symm
              | some d2 =>
                  simp only [List.foldl]
                  have h : dissect_step packet (some d) (some f) = some d2 := by
                    simp [dissect_step, hf]
                  rw [h]
                  exact ih d2

/-- Characterization of the backwards retransmission scan over the first
`n` list positions: `some i` is returned exactly for the largest matching
position other than `j`; `none` exactly when no position other than `j`
matches. -/
theorem msg_is_retrans_scan_spec (msgs : List RetransMsg) (m : RetransMsg) (j : Nat)
    (n : Nat) :
    (∀ i, msg_is_retrans_scan msgs m j n = some i ↔
      (i < n ∧ i ≠ j ∧ (∃ p, msgs.get? i = some p ∧ retrans_match m p = true) ∧
        ∀ k, k < n → k ≠ j →
          (∃ q, msgs.get? k = some q ∧ retrans_match m q = true) → k ≤ i)) ∧
    (msg_is_retrans_scan msgs m j n = none ↔
      (∀ k, k < n → k ≠ j → ∀ q, msgs.get? k = some q → retrans_match m q = false)) := by
  induction n with
  | zero =>
      refine ⟨fun i => ?_, ?_⟩
      · simp [msg_is_retrans_scan]
      · simp [msg_is_retrans_scan]
  | succ n ih =>
      cases hg : msgs.get? n with
      | none =>
          have hstep : msg_is_retrans_scan msgs m j (n + 1) =
              msg_is_retrans_scan msgs m j n := by
            simp only [msg_is_retrans_scan]
            rw [hg]
          refine ⟨fun i => ?_, ?_⟩
          · rw [hstep, ih.1 i]
            constructor
            · rintro ⟨hin, hij, hm, hmax⟩
              refine ⟨by omega, hij, hm, fun k hk hkj hq => ?_⟩
              have hk2 : k < n ∨ k = n := by omega
              rcases hk2 with hk' | rfl
              · exact hmax k hk' hkj hq
              · rcases hq with ⟨q, hq1, _⟩
                rw [hg] at hq1
                cases hq1
            · rintro ⟨hin, hij, hm, hmax⟩
              have hin' : i < n := by
                have : i < n ∨ i = n := by omega
                rcases this with h | rfl
                · exact h
                · rcases hm with ⟨p, hp, _⟩
                  rw [hg] at hp
                  cases hp
              exact ⟨hin', hij, hm, fun k hk hkj hq => hmax k (by omega) hkj hq⟩
          · rw [hstep, ih.2]
            constructor
            · intro h k hk hkj q hq
              have hk2 : k < n ∨ k = n := by omega
              rcases hk2 with hk' | rfl
              · exact h k hk' hkj q hq
              · rw [hg] at hq
                cases hq
            · intro h k hk hkj q hq
              exact h k (by omega) hkj q hq
      | some prev =>
          by_cases hnj : n = j
          · subst hnj
            have hstep : msg_is_retrans_scan msgs m n (n + 1) =
                msg_is_retrans_scan msgs m n n := by
              simp only [msg_is_retrans_scan]
              rw [hg]
              simp
            refine ⟨fun i => ?_, ?_⟩
            · rw [hstep, ih.1 i]
              constructor
              · rintro ⟨hin, hij, hm, hmax⟩
                refine ⟨by omega, hij, hm, fun k hk hkj hq => ?_⟩
                have hk2 : k < n ∨ k = n := by omega
                rcases hk2 with hk' | rfl
                · exact hmax k hk' hkj hq
                · exact absurd rfl hkj
              · rintro ⟨hin, hij, hm, hmax⟩
                have hin' : i < n := by omega
                exact ⟨hin', hij, hm, fun k hk hkj hq => hmax k (by omega) hkj hq⟩
            · rw [hstep, ih.2]
              constructor
              · intro h k hk hkj q hq
                have hk2 : k < n ∨ k = n := by omega
                rcases hk2 with hk' | rfl
                · exact h k hk' hkj q hq
                · exact absurd rfl hkj
              · intro h k hk hkj q hq
                exact h k (by omega) hkj q hq
          · by_cases hmt : retrans_match m prev = true
            · have hstep : msg_is_retrans_scan msgs m j (n + 1) = some n := by
                simp only [msg_is_retrans_scan]
                rw [hg]
                simp [hnj, hmt]
              refine ⟨fun i => ?_, ?_⟩
              · rw [hstep]
                constructor
                · intro h
                  injection h with h
                  subst h
                  exact ⟨Nat.lt_succ_self n, hnj, ⟨prev, hg, hmt⟩, fun k hk _ _ => by omega⟩
                · rintro ⟨hin, hij, hm, hmax⟩
                  have hni := hmax n (Nat.lt_succ_self n) hnj ⟨prev, hg, hmt⟩
                  have : i = n := by omega
                  rw [this]
              · rw [hstep]
                constructor
                · intro h
                  cases h
                · intro h
                  have := h n (Nat.lt_succ_self n) hnj prev hg
                  rw [hmt] at this
                  cases this
            · have hmf : retrans_match m prev = false := by
                revert hmt
                cases retrans_match m prev <;> simp
              have hstep : msg_is_retrans_scan msgs m j (n + 1) =
                  msg_is_retrans_scan msgs m j n := by
                simp only [msg_is_retrans_scan]
                rw [hg]
                simp [hnj, hmf]
              refine ⟨fun i => ?_, ?_⟩
              · rw [hstep, ih.1 i]
                constructor
                · rintro ⟨hin, hij, hm, hmax⟩
                  refine ⟨by omega, hij, hm, fun k hk hkj hq => ?_⟩
                  have hk2 : k < n ∨ k = n := by omega
                  rcases hk2 with hk' | rfl
                  · exact hmax k hk' hkj hq
                  · rcases hq with ⟨q, hq1, hq2⟩
                    rw [hg] at hq1
                    injection hq1 with hq1
                    subst hq1
                    rw [hmf] at hq2
                    cases hq2
                · rintro ⟨hin, hij, hm, hmax⟩
                  have hin' : i < n := by
                    have : i < n ∨ i = n := by omega
                    rcases this with h | rfl
                    · exact h
                    · rcases hm with ⟨p, hp, hp2⟩
                      rw [hg] at hp
                      injection hp with hp
                      subst hp
                      rw [hmf] at hp2
                      cases hp2
                  exact ⟨hin', hij, hm, fun k hk hkj hq => hmax k (by omega) hkj hq⟩
              · rw [hstep, ih.2]
                constructor
                · intro h k hk hkj q hq
                  have hk2 : k < n ∨ k = n := by omega
                  rcases hk2 with hk' | rfl
                  · exact h k hk' hkj q hq
                  · rw [hg] at hq
                    injection hq with hq
                    subst hq
                    exact hmf
                · intro h k hk hkj q hq
                  exact h k (by omega) hkj q hq

/-- **C4.** For the message at position `j` of its call's message list,
`msg_is_retrans` returns some other position exactly when another message
of the call has equal source and destination addresses (ports included)
and a case-insensitively identical payload, and the returned position is
the last such in the call's message order; with no such message it
returns nothing — in particular a message whose payload differs (as a
different CSeq forces) is never reported. -/
theorem retrans_returns_last_matching (msgs : List RetransMsg) (j : Nat) (m : RetransMsg)
    (hj : msgs.get? j = some m) :
    (∀ i, msg_is_retrans msgs j = some i ↔
      (i ≠ j ∧ (∃ p, msgs.get? i = some p ∧ retrans_match m p = true) ∧
        ∀ k, k ≠ j → (∃ q, msgs.get? k = some q ∧ retrans_match m q = true) → k ≤ i)) ∧
    (msg_is_retrans msgs j = none ↔
      (∀ k, k ≠ j → ∀ q, msgs.get? k = some q → retrans_match m q = false)) := by
  have hlen : ∀ k (q : RetransMsg), msgs.get? k = some q → k < msgs.length := by
    intro k q hq
    by_contra hko
    rw [List.get?_eq_none.mpr (by omega)] at hq
    cases hq
  have hms : msg_is_retrans msgs j = msg_is_retrans_scan msgs m j msgs.length := by
    simp only [msg_is_retrans]
    rw [hj]
  have hspec := msg_is_retrans_scan_spec msgs m j msgs.length
  refine ⟨fun i => ?_, ?_⟩
  · rw [hms, hspec.1 i]
    constructor
    · rintro ⟨hin, hij, hm, hmax⟩
      refine ⟨hij, hm, fun k hkj hq => ?_⟩
      rcases hq with ⟨q, hq1, hq2⟩
      exact hmax k (hlen k q hq1) hkj ⟨q, hq1, hq2⟩
    · rintro ⟨hij, hm, hmax⟩
      have hi : i < msgs.length := by
        rcases hm with ⟨p, hp, _⟩
        exact hlen i p hp
      exact ⟨hi, hij, hm, fun k _ hkj hq => hmax k hkj hq⟩
  · rw [hms, hspec.2]
    constructor
    · intro h k hkj q hq
      exact h k (hlen k q hq) hkj q hq
    · intro h k _ hkj q hq
      exact h k hkj q hq

/-- Witness for C4 on a two-message call whose second message repeats the
first one's payload up to case: the `none` characterization instantiates
at position 1. -/
theorem retrans_returns_last_matching_witness :
    c4_msgs.get? 1 = some c4_m1 ∧
    (msg_is_retrans c4_msgs 1 = none ↔
      (∀ k, k ≠ 1 → ∀ q, c4_msgs.get? k = some q → retrans_match c4_m1 q = false)) :=
  ⟨rfl, (retrans_returns_last_matching c4_msgs 1 c4_m1 rfl).2⟩

/-- The initial-transaction loop equals the specification-side search for
the first stopping request, which then contributes its packet flag; the
hypothesis pins the message under test at every position of the suffix
that maps to list position `j`. -/
theorem init_scan_eq_spec (m : SipDirMsg) (j : Nat) :
    ∀ (l : List SipDirMsg) (i : Nat),
      (∀ k, i + k = j → l.get? k = some m) →
      msg_is_initial_transaction_scan m j l i =
        ((first_same_cseq_request m j l i).map SipDirMsg.init_flag).getD m.init_flag := by
  intro l
  induction l with
  | nil =>
      intro i _
      rfl
  | cons cm rest ih =>
      intro i hm
      have hrest : ∀ k, (i + 1) + k = j → rest.get? k = some m := by
        intro k hk
        have h := hm (k + 1) (by omega)
        simpa using h
      by_cases hij : i = j
      · have hcm : cm = m := by
          have h := hm 0 (by omega)
          simpa using h
        subst hcm
        by_cases hreq : sipdir_is_request cm = true
        · have h1 : msg_is_initial_transaction_scan cm j (cm :: rest) i = cm.init_flag := by
            simp [msg_is_initial_transaction_scan, hreq, hij]
          have h2 : first_same_cseq_request cm j (cm :: rest) i = none := by
            simp [first_same_cseq_request, hreq, hij]
          rw [h1, h2]
          rfl
        · have h1 : msg_is_initial_transaction_scan cm j (cm :: rest) i =
              msg_is_initial_transaction_scan cm j rest (i + 1) := by
            simp [msg_is_initial_transaction_scan, hreq]
          have h2 : first_same_cseq_request cm j (cm :: rest) i =
              first_same_cseq_request cm j rest (i + 1) := by
            simp [first_same_cseq_request, hreq, hij, init_trans_match]
          rw [h1, h2]
          exact ih (i + 1) hrest
      · cases hreq : sipdir_is_request cm with
        | false =>
            have h1 : msg_is_initial_transaction_scan m j (cm :: rest) i =
                msg_is_initial_transaction_scan m j rest (i + 1) := by
              simp [msg_is_initial_transaction_scan, hreq]
            have h2 : first_same_cseq_request m j (cm :: rest) i =
                first_same_cseq_request m j rest (i + 1) := by
              simp [first_same_cseq_request, hij, init_trans_match, hreq]
            rw [h1, h2]
            exact ih (i + 1) hrest
        | true =>
            by_cases hcs : m.cseq = cm.cseq
            · by_cases hreqm : sipdir_is_request m = true
              · by_cases haddr : addressport_equals m.src cm.src = true
                · have h1 : msg_is_initial_transaction_scan m j (cm :: rest) i =
                      cm.init_flag := by
                    simp [msg_is_initial_transaction_scan, hreq, hij, hcs, hreqm, haddr]
                  have h2 : first_same_cseq_request m j (cm :: rest) i = some cm := by
                    simp [first_same_cseq_request, hij, init_trans_match, hreq, hcs,
                          hreqm, haddr]
                  rw [h1, h2]
                  rfl
                · have h1 : msg_is_initial_transaction_scan m j (cm :: rest) i =
                      msg_is_initial_transaction_scan m j rest (i + 1) := by
                    simp [msg_is_initial_transaction_scan, hreq, hij, hcs, hreqm, haddr]
                  have h2 : first_same_cseq_request m j (cm :: rest) i =
                      first_same_cseq_request m j rest (i + 1) := by
                    simp [first_same_cseq_request, hij, init_trans_match, hreq, hcs,
                          hreqm, haddr]
                  rw [h1, h2]
                  exact ih (i + 1) hrest
              · by_cases haddr : addressport_equals m.src cm.dst = true
                · have h1 : msg_is_initial_transaction_scan m j (cm :: rest) i =
                      cm.init_flag := by
                    simp [msg_is_initial_transaction_scan, hreq, hij, hcs, hreqm, haddr]
                  have h2 : first_same_cseq_request m j (cm :: rest) i = some cm := by
                    simp [first_same_cseq_request, hij, init_trans_match, hreq, hcs,
                          hreqm, haddr]
                  rw [h1, h2]
                  rfl
                · have h1 : msg_is_initial_transaction_scan m j (cm :: rest) i =
                      msg_is_initial_transaction_scan m j rest (i + 1) := by
                    simp [msg_is_initial_transaction_scan, hreq, hij, hcs, hreqm, haddr]
                  have h2 : first_same_cseq_request m j (cm :: rest) i =
                      first_same_cseq_request m j rest (i + 1) := by
                    simp [first_same_cseq_request, hij, init_trans_match, hreq, hcs,
                          hreqm, haddr]
                  rw [h1, h2]
                  exact ih (i + 1) hrest
            · have h1 : msg_is_initial_transaction_scan m j (cm :: rest) i =
                  msg_is_initial_transaction_scan m j rest (i + 1) := by
                simp [msg_is_initial_transaction_scan, hreq, hij, hcs]
              have h2 : first_same_cseq_request m j (cm :: rest) i =
                  first_same_cseq_request m j rest (i + 1) := by
                simp [first_same_cseq_request, hij, init_trans_match, hreq, hcs]
              rw [h1, h2]
              exact ih (i + 1) hrest

/-- **C5 (amended).** `msg_is_initial_transaction` on the message at
position `j` returns the packet-level initial-transaction flag of the
first request the scan stops at — a same-CSeq request matching the
message's source (for requests) or whose destination matches the
message's source (for responses), where the scan is cut off at the
message itself only when it is a request — and the message's own packet
flag when no such request exists.  (As stated, the claim fails: the
result is a stored packet flag, not the mere non-existence of an earlier
matching request; see the counterexample.) -/
theorem initial_transaction_uses_matched_request_flag (msgs : List SipDirMsg) (j : Nat)
    (m : SipDirMsg) (hj : msgs.get? j = some m) :
    msg_is_initial_transaction msgs j =
      ((first_same_cseq_request m j msgs 0).map SipDirMsg.init_flag).getD m.init_flag := by
  have h0 : ∀ k, 0 + k = j → msgs.get? k = some m := by
    intro k hk
    have hkj : k = j := by omega
    rw [hkj]
    exact hj
  have h := init_scan_eq_spec m j msgs 0 h0
  simp only [msg_is_initial_transaction]
  rw [hj]
  exact h

/-- Counterexample to C5 as stated: in the two-INVITE call `c5_msgs`,
message 1 is preceded by message 0, a request with the same CSeq from the
same source (`init_trans_match` holds), yet `msg_is_initial_transaction`
returns `true` — the earlier request's stored packet flag — where the
claim's "exactly when no such earlier request exists" demands `false`. -/
theorem initial_transaction_claim_counterexample :
    c5_msgs.get? 1 = some c5_m ∧
    c5_msgs.get? 0 = some c5_m ∧
    init_trans_match c5_m c5_m = true ∧
    msg_is_initial_transaction c5_msgs 1 = true := by
  refine ⟨rfl, rfl, ?_, ?_⟩ <;> decide

/-- Witness for the amended C5 on the two-INVITE call. -/
theorem initial_transaction_uses_matched_request_flag_witness :
    c5_msgs.get? 1 = some c5_m ∧
    msg_is_initial_transaction c5_msgs 1 =
      ((first_same_cseq_request c5_m 1 c5_msgs 0).map SipDirMsg.init_flag).getD
        c5_m.init_flag :=
  ⟨rfl, initial_transaction_uses_matched_request_flag c5_msgs 1 c5_m rfl⟩

/-- **C6 (amended).** Creating a HEP capture input or output whose
configured version is neither 2 nor 3 fails before any socket operation
(no socket is created, bound or connected, so no packets are ever
ingested or sent); the error is the version error carrying the offending
version whenever the URL argument is absent or parses — a malformed URL
argument aborts with a URL error instead, the URL being checked first. -/
theorem hep_bad_version_aborts (ver : Int) (url : Option String)
    (host : String) (port : Int) (env : SocketEnv)
    (hver : ver ≠ 2 ∧ ver ≠ 3) :
    ((capture_input_hep ver url host port env).2 = [] ∧
     (capture_output_hep ver url host port env).2 = []) ∧
    (url = none →
      capture_input_hep ver url host port env = (.error (.version ver), []) ∧
      capture_output_hep ver url host port env = (.error (.version ver), [])) ∧
    (∀ u cu, url = some u → capture_hep_parse_url u = .ok cu →
      capture_input_hep ver url host port env = (.error (.version ver), []) ∧
      capture_output_hep ver url host port env = (.error (.version ver), [])) := by
  obtain ⟨hv2, hv3⟩ := hver
  refine ⟨?_, ?_, ?_⟩
  · cases url with
    | none =>
        constructor <;> simp [capture_input_hep, capture_output_hep, hv2, hv3]
    | some u =>
        cases hp : capture_hep_parse_url u with
        | error e =>
            constructor <;> simp [capture_input_hep, capture_output_hep, hp]
        | ok cu =>
            constructor <;> simp [capture_input_hep, capture_output_hep, hp, hv2, hv3]
  · rintro rfl
    constructor <;> simp [capture_input_hep, capture_output_hep, hv2, hv3]
  · rintro u cu rfl hp
    constructor <;> simp [capture_input_hep, capture_output_hep, hp, hv2, hv3]

/-- Counterexample to C6 as stated: with version 5 and the malformed URL
`tcp:127.0.0.1:9060` (unsupported scheme), the input constructor fails
with a URL-parse error, not the version error the claim promises for
every bad-version creation — though still with no socket operation. -/
theorem hep_bad_version_url_error_first :
    ((5 : Int) ≠ 2 ∧ (5 : Int) ≠ 3) ∧
    capture_input_hep 5 (some "tcp:127.0.0.1:9060") "0.0.0.0" 9060 ⟨true, true, true⟩ =
      (.error (.url_parse_proto "tcp:127.0.0.1:9060" "tcp"), []) :=
  ⟨⟨by decide, by decide⟩, rfl⟩

/-- Witness for the amended C6: version 5, settings-derived address, both
endpoint constructors return the version error with no socket
operation. -/
theorem hep_bad_version_aborts_witness :
    ((5 : Int) ≠ 2 ∧ (5 : Int) ≠ 3) ∧
    (capture_input_hep 5 none "0.0.0.0" 9060 ⟨true, true, true⟩ =
        (.error (.version 5), []) ∧
     capture_output_hep 5 none "0.0.0.0" 9060 ⟨true, true, true⟩ =
        (.error (.version 5), [])) :=
  ⟨⟨by decide, by decide⟩,
   (hep_bad_version_aborts 5 none "0.0.0.0" 9060 ⟨true, true, true⟩
      ⟨by decide, by decide⟩).2.1 rfl⟩

/-- A forest mentions a protocol exactly when one of its trees does. -/
theorem mentions_forest_eq_any (id : ProtoId) (l : List DissectorNode) :
    mentions_forest id l = true ↔ ∃ t ∈ l, t.mentions id = true := by
  induction l with
  | nil => simp [mentions_forest]
  | cons x xs ih => simp [mentions_forest, ih]

/-- The subdissector loop preserves the construction invariant whenever
the recursive call does. -/
theorem dissector_init_children_invariant (s : SettingStore)
    (f : ProtoId → ParserState → Option DissectorNode × ParserState)
    (hf : InitStep s f) :
    ∀ (l : List ProtoId) (st : ParserState),
      st.dissectors = st.created.reverse → st.created.Nodup →
      (∃ new, (dissector_init_children f l st).2.created = st.created ++ new ∧
          ∀ i ∈ new, dissector_constructible s i = true) ∧
      (dissector_init_children f l st).2.dissectors =
        (dissector_init_children f l st).2.created.reverse ∧
      (dissector_init_children f l st).2.created.Nodup ∧
      (∀ t ∈ (dissector_init_children f l st).1, ∀ i, t.mentions i = true →
          i ∈ (dissector_init_children f l st).2.created) := by
  intro l
  induction l with
  | nil =>
      intro st h1 h2
      refine ⟨⟨[], by simp [dissector_init_children], by simp⟩, ?_, ?_, ?_⟩
      · simpa [dissector_init_children] using h1
      · simpa [dissector_init_children] using h2
      · intro t ht
        simp [dissector_init_children] at ht
  | cons cid rest ih =>
      intro st h1 h2
      obtain ⟨⟨new1, hc1, hall1⟩, hinv1, hnd1, hment1⟩ := hf cid st h1 h2
      obtain ⟨⟨new2, hc2, hall2⟩, hinv2, hnd2, hment2⟩ := ih (f cid st).2 hinv1 hnd1
      have hstate : (dissector_init_children f (cid :: rest) st).2 =
          (dissector_init_children f rest (f cid st).2).2 := by
        simp [dissector_init_children]
      have hnodes : (dissector_init_children f (cid :: rest) st).1 =
          (match (f cid st).1 with
           | none => (dissector_init_children f rest (f cid st).2).1
           | some nd => nd :: (dissector_init_children f rest (f cid st).2).1) := by
        simp [dissector_init_children]
      refine ⟨⟨new1 ++ new2, ?_, ?_⟩, ?_, ?_, ?_⟩
      · rw [hstate, hc2, hc1, List.append_assoc]
      · intro i hi
        rcases List.mem_append.mp hi with h | h
        · exact hall1 i h
        · exact hall2 i h
      · rw [hstate]
        exact hinv2
      · rw [hstate]
        exact hnd2
      · intro t ht i hm
        rw [hnodes] at ht
        cases hr : (f cid st).1 with
        | none =>
            rw [hr] at ht
            rw [hstate]
            exact hment2 t ht i hm
        | some nd =>
            rw [hr] at ht
            rcases List.mem_cons.mp ht with rfl | ht2
            · rw [hstate, hc2]
              exact List.mem_append.mpr (Or.inl (hment1 t hr i hm))
            · rw [hstate]
              exact hment2 t ht2 i hm

/-- The construction invariant holds for `packet_parser_dissector_init` at
every fuel. -/
theorem packet_parser_dissector_init_invariant (s : SettingStore)
    (subdiss : ProtoId → List ProtoId) :
    ∀ fuel : Nat, InitStep s (packet_parser_dissector_init s subdiss fuel) := by
  intro fuel
  induction fuel with
  | zero =>
      intro id st h1 h2
      refine ⟨⟨[], by simp [packet_parser_dissector_init], by simp⟩, ?_, ?_, ?_⟩
      · simpa [packet_parser_dissector_init] using h1
      · simpa [packet_parser_dissector_init] using h2
      · intro t ht
        simp [packet_parser_dissector_init] at ht
  | succ fuel ih =>
      intro id st h1 h2
      by_cases hcont : st.dissectors.contains id = true
      · have hmem : id ∈ st.dissectors := by simpa using hcont
        obtain ⟨⟨new, hc, hall⟩, hinv, hnd, hment⟩ :=
          dissector_init_children_invariant s
            (fun cid st2 => packet_parser_dissector_init s subdiss fuel cid st2)
            ih (subdiss id) st h1 h2
        have hstep : packet_parser_dissector_init s subdiss (Nat.succ fuel) id st =
            (some (DissectorNode.node id
              ((dissector_init_children
                (fun cid st2 => packet_parser_dissector_init s subdiss fuel cid st2)
                (subdiss id) st).1)),
             (dissector_init_children
               (fun cid st2 => packet_parser_dissector_init s subdiss fuel cid st2)
               (subdiss id) st).2) := by
          simp [packet_parser_dissector_init, hcont, hmem]
        rw [hstep]
        refine ⟨⟨new, hc, hall⟩, hinv, hnd, ?_⟩
        intro t ht i hm
        injection ht with ht
        subst ht
        have hm2 : (id == i) = true ∨
            mentions_forest i ((dissector_init_children
              (fun cid st2 => packet_parser_dissector_init s subdiss fuel cid st2)
              (subdiss id) st).1) = true := by
          simpa [DissectorNode.mentions, Bool.or_eq_true] using hm
        rcases hm2 with hm2 | hm2
        · have hii : id = i := by simpa using hm2
          subst hii
          have hmem : id ∈ st.created := by
            have hmemd : id ∈ st.dissectors := by simpa using hcont
            rw [h1] at hmemd
            simpa using hmemd
          rw [hc]
          exact List.mem_append.mpr (Or.inl hmem)
        · rcases (mentions_forest_eq_any i _).mp hm2 with ⟨t2, ht2, hm3⟩
          exact hment t2 ht2 i hm3
      · have hmem : id ∉ st.dissectors := by
          intro hin
          exact hcont (by simpa using hin)
        by_cases hcons : dissector_constructible s id = true
        · have hid_not : id ∉ st.created := by
            intro hmem
            have : id ∈ st.dissectors := by
              rw [h1]
              simpa using hmem
            have : st.dissectors.contains id = true := by simpa using this
            exact hcont this
          have h1' : (ParserState.mk (id :: st.dissectors) (st.created ++ [id])).dissectors =
              (ParserState.mk (id :: st.dissectors) (st.created ++ [id])).created.reverse := by
            simp [h1]
          have h2' : (ParserState.mk (id :: st.dissectors) (st.created ++ [id])).created.Nodup := by
            simp [List.nodup_append, h2, hid_not]
          obtain ⟨⟨new, hc, hall⟩, hinv, hnd, hment⟩ :=
            dissector_init_children_invariant s
              (fun cid st2 => packet_parser_dissector_init s subdiss fuel cid st2)
              ih (subdiss id) (ParserState.mk (id :: st.dissectors) (st.created ++ [id])) h1' h2'
          have hstep : packet_parser_dissector_init s subdiss (Nat.succ fuel) id st =
              (some (DissectorNode.node id
                ((dissector_init_children
                  (fun cid st2 => packet_parser_dissector_init s subdiss fuel cid st2)
                  (subdiss id) (ParserState.mk (id :: st.dissectors) (st.created ++ [id]))).1)),
               (dissector_init_children
                 (fun cid st2 => packet_parser_dissector_init s subdiss fuel cid st2)
                 (subdiss id) (ParserState.mk (id :: st.dissectors) (st.created ++ [id]))).2) := by
            simp [packet_parser_dissector_init, hcont, hmem, hcons]
          rw [hstep]
          refine ⟨⟨id :: new, ?_, ?_⟩, hinv, hnd, ?_⟩
          · rw [hc]
            simp
          · intro i hi
            rcases List.mem_cons.mp hi with rfl | hi2
            · exact hcons
            · exact hall i hi2
          · intro t ht i hm
            injection ht with ht
            subst ht
            have hm2 : (id == i) = true ∨
                mentions_forest i ((dissector_init_children
                  (fun cid st2 => packet_parser_dissector_init s subdiss fuel cid st2)
                  (subdiss id) (ParserState.mk (id :: st.dissectors) (st.created ++ [id]))).1) = true := by
              simpa [DissectorNode.mentions, Bool.or_eq_true] using hm
            rcases hm2 with hm2 | hm2
            · have hii : id = i := by simpa using hm2
              subst hii
              rw [hc]
              refine List.mem_append.mpr (Or.inl ?_)
              simp
            · rcases (mentions_forest_eq_any i _).mp hm2 with ⟨t2, ht2, hm3⟩
              exact hment t2 ht2 i hm3
        · have hstep : packet_parser_dissector_init s subdiss (Nat.succ fuel) id st =
              (none, st) := by
            simp [packet_parser_dissector_init, hcont, hmem, hcons]
          rw [hstep]
          refine ⟨⟨[], by simp, by simp⟩, h1, h2, ?_⟩
          intro t ht
          cases ht

/-- **C3 (amended).** A protocol whose constructor switch declines — in
particular any protocol whose `capture.packet.*` enable setting is not
enabled per `setting_enabled` (value neither `"on"` nor `"yes"`) — gets
no dissector instance and no tree node: `packet_parser_dissector_init`
returns `NULL` with the parser state untouched, so the protocol and the
subtree it would root are absent from the dissector tree; and any
protocol appearing in a tree built from a fresh parser had its instance
created exactly once, shared by all tree nodes referring to it.  (As
literally stated — "enable setting not 'on'-valued" — the claim fails on
the reachable stored value `"yes"`; see the counterexample.) -/
theorem disabled_protocols_absent_enabled_shared (s : SettingStore)
    (subdiss : ProtoId → List ProtoId) (fuel : Nat) :
    (∀ (id : ProtoId) (st : ParserState),
        dissector_constructible s id = false → id ∉ st.dissectors →
        packet_parser_dissector_init s subdiss fuel id st = (none, st)) ∧
    (∀ root id : ProtoId,
        (dissector_constructible s id = false →
          (packet_parser_dissector_init s subdiss fuel root ⟨[], []⟩).2.created.count id
              = 0 ∧
          (∀ t, (packet_parser_dissector_init s subdiss fuel root ⟨[], []⟩).1 = some t →
            t.mentions id = false)) ∧
        (∀ t, (packet_parser_dissector_init s subdiss fuel root ⟨[], []⟩).1 = some t →
          t.mentions id = true →
          (packet_parser_dissector_init s subdiss fuel root ⟨[], []⟩).2.created.count id
              = 1)) := by
  constructor
  · intro id st hdis hni
    cases fuel with
    | zero => rfl
    | succ fuel => simp [packet_parser_dissector_init, hni, hdis]
  · intro root id
    obtain ⟨⟨new, hc, hall⟩, hinv, hnd, hment⟩ :=
      packet_parser_dissector_init_invariant s subdiss fuel root ⟨[], []⟩ rfl
        List.nodup_nil
    have hcreq :
        (packet_parser_dissector_init s subdiss fuel root ⟨[], []⟩).2.created = new := by
      simpa using hc
    constructor
    · intro hdis
      have hnotin :
          id ∉ (packet_parser_dissector_init s subdiss fuel root ⟨[], []⟩).2.created := by
        rw [hcreq]
        intro hmemn
        rw [hall id hmemn] at hdis
        cases hdis
      constructor
      · exact List.count_eq_zero.mpr hnotin
      · intro t ht
        by_contra hmt
        have hmt2 : t.mentions id = true := by
          revert hmt
          cases t.mentions id <;> simp
        exact hnotin (hment t ht id hmt2)
    · intro t ht hmt
      exact List.count_eq_one_of_mem hnd (hment t ht id hmt)

/-- Counterexample to C3 as stated: after a configuration line
`set capture.packet.ip yes`, the ip enable setting is not `"on"`-valued,
yet building the tree from the ip protocol creates an ip dissector
instance (one creation event is recorded). -/
theorem non_on_valued_protocol_still_built :
    setting_has_value sample_settings_ip_yes SETTING_CAPTURE_PACKET_IP "on" = false ∧
    (packet_parser_dissector_init sample_settings_ip_yes sample_subdissectors 2
        PACKET_IP ⟨[], []⟩).2.created.count PACKET_IP = 1 := by
  constructor <;> decide

/-- Witness for the amended C3 on the default settings (hep disabled by
default): building from the link root creates no hep instance. -/
theorem disabled_protocols_absent_enabled_shared_witness :
    dissector_constructible sample_settings PACKET_HEP = false ∧
    (packet_parser_dissector_init sample_settings sample_subdissectors 10
        PACKET_LINK ⟨[], []⟩).2.created.count PACKET_HEP = 0 :=
  ⟨by decide,
   (((disabled_protocols_absent_enabled_shared sample_settings sample_subdissectors
        10).2 PACKET_LINK PACKET_HEP).1 (by decide)).1⟩

/-- Peeling one well-formed chunk off the TLV walk. -/
theorem hep_parse_chunks_chunk (tid L : Nat) (data rest : List Nat)
    (ht : tid < 65536) (hL : L = 6 + data.length) (hsz : L < 65536) :
    hep_parse_chunks (hep_chunk_header tid L ++ (data ++ rest)) =
      (hep_parse_chunks rest).map (fun cs => (tid, data) :: cs) := by
  subst hL
  simp only [hep_chunk_header, u16be, List.cons_append, List.nil_append,
             List.append_assoc]
  rw [hep_parse_chunks]
  have htid : tid / 256 % 256 * 256 + tid % 256 = tid := by omega
  have hlen : (6 + data.length) / 256 % 256 * 256 + (6 + data.length) % 256 =
      6 + data.length := by omega
  simp only [htid, hlen]
  have hcond : 6 ≤ 6 + data.length ∧ 6 + data.length - 6 ≤ (data ++ rest).length := by
    simp
  rw [if_pos hcond]
  have hdrop : (data ++ rest).drop (6 + data.length - 6) = rest := by simp
  have htake : (data ++ rest).take (6 + data.length - 6) = data := by simp
  rw [hdrop, htake]
  cases hep_parse_chunks rest <;> simp

/-- The TLV walk inverts chunk serialization. -/
theorem hep_parse_serialize (chunks : List (Nat × List Nat))
    (h : ∀ c ∈ chunks, c.1 < 65536 ∧ 6 + c.2.length < 65536) :
    hep_parse_chunks (hep_serialize_chunks chunks) = some chunks := by
  induction chunks with
  | nil =>
      show hep_parse_chunks [] = some []
      rw [hep_parse_chunks]
  | cons c rest ih =>
      obtain ⟨t, d⟩ := c
      have hc := h (t, d) (List.mem_cons_self _ _)
      have hrec : hep_parse_chunks (hep_serialize_chunks rest) = some rest :=
        ih (fun c2 hc2 => h c2 (List.mem_cons_of_mem _ hc2))
      have hser : hep_serialize_chunks ((t, d) :: rest) =
          hep_chunk_header t (6 + d.length) ++ (d ++ hep_serialize_chunks rest) := by
        simp [hep_serialize_chunks]
      rw [hser, hep_parse_chunks_chunk t (6 + d.length) d (hep_serialize_chunks rest)
          hc.1 rfl hc.2, hrec]
      rfl

/-- The writer's buffer is the banner, the total length, and the
serialization of its chunk list, provided the address byte lists have the
sizes the fixed-size address chunks assume. -/
theorem capture_output_hep_write_eq (hep : HepOutputCfg) (p : HepPacketData)
    (hip : (p.ip_version = 4 ∧ p.srcip.length = 4 ∧ p.dstip.length = 4) ∨
           (p.ip_version = 6 ∧ p.srcip.length = 16 ∧ p.dstip.length = 16)) :
    capture_output_hep_write hep p =
      [0x48, 0x45, 0x50, 0x33] ++ u16be (hep_total_len hep p) ++
        hep_serialize_chunks (hep_written_chunks hep p) := by
  rcases hip with ⟨hv, hs, hd⟩ | ⟨hv, hs, hd⟩ <;>
    cases hpw : hep.password <;>
      simp [capture_output_hep_write, hep_written_chunks, hep_serialize_chunks,
            hv, hs, hd, hpw, u16be, u32be, List.append_assoc]

/-- The writer's buffer has exactly the declared total length. -/
theorem capture_output_hep_write_length (hep : HepOutputCfg) (p : HepPacketData)
    (hip : (p.ip_version = 4 ∧ p.srcip.length = 4 ∧ p.dstip.length = 4) ∨
           (p.ip_version = 6 ∧ p.srcip.length = 16 ∧ p.dstip.length = 16)) :
    (capture_output_hep_write hep p).length = hep_total_len hep p := by
  rcases hip with ⟨hv, hs, hd⟩ | ⟨hv, hs, hd⟩ <;>
    cases hpw : hep.password <;>
      simp [capture_output_hep_write, hep_total_len, hep_generic_size, hep_ip_len,
            hep_auth_len, hep_chunk_header, u16be, u32be, hv, hs, hd, hpw] <;>
        omega

/-- Every chunk the writer emits is well-sized for the TLV walk, given
the total length fits the 16-bit length field. -/
theorem hep_written_chunks_wf (hep : HepOutputCfg) (p : HepPacketData)
    (hip : (p.ip_version = 4 ∧ p.srcip.length = 4 ∧ p.dstip.length = 4) ∨
           (p.ip_version = 6 ∧ p.srcip.length = 16 ∧ p.dstip.length = 16))
    (htot : hep_total_len hep p < 65536) :
    ∀ c ∈ hep_written_chunks hep p, c.1 < 65536 ∧ 6 + c.2.length < 65536 := by
  have htot2 := htot
  unfold hep_total_len hep_generic_size hep_ip_len hep_auth_len at htot2
  rcases hip with ⟨hv, hs, hd⟩ | ⟨hv, hs, hd⟩ <;> cases hpw : hep.password
  · rw [hv, hpw] at htot2
    simp at htot2
    intro c hc
    simp [hep_written_chunks, hv, hpw] at hc
    rcases hc with rfl | rfl | rfl | rfl | rfl | rfl | rfl | rfl | rfl | rfl | rfl <;>
      simp [u16be, u32be, hs, hd] <;> omega
  · rw [hv, hpw] at htot2
    simp at htot2
    intro c hc
    simp [hep_written_chunks, hv, hpw] at hc
    rcases hc with rfl | rfl | rfl | rfl | rfl | rfl | rfl | rfl | rfl | rfl | rfl | rfl <;>
      simp [u16be, u32be, hs, hd] <;> omega
  · rw [hv, hpw] at htot2
    simp at htot2
    intro c hc
    simp [hep_written_chunks, hv, hpw] at hc
    rcases hc with rfl | rfl | rfl | rfl | rfl | rfl | rfl | rfl | rfl | rfl | rfl <;>
      simp [u16be, u32be, hs, hd] <;> omega
  · rw [hv, hpw] at htot2
    simp at htot2
    intro c hc
    simp [hep_written_chunks, hv, hpw] at hc
    rcases hc with rfl | rfl | rfl | rfl | rfl | rfl | rfl | rfl | rfl | rfl | rfl | rfl <;>
      simp [u16be, u32be, hs, hd] <;> omega

/-- Decoding a banner-framed serialized chunk stream reduces to field
extraction from the chunk list. -/
theorem hep_decode_serialize (cs : List (Nat × List Nat)) (T : Nat)
    (hT : T = 6 + (hep_serialize_chunks cs).length) (hT2 : T < 65536)
    (hwf : ∀ c ∈ cs, c.1 < 65536 ∧ 6 + c.2.length < 65536) :
    hep_decode_v3 ([0x48, 0x45, 0x50, 0x33] ++ u16be T ++ hep_serialize_chunks cs) =
      hep_extract cs := by
  have hshape : [0x48, 0x45, 0x50, 0x33] ++ u16be T ++ hep_serialize_chunks cs =
      0x48 :: 0x45 :: 0x50 :: 0x33 :: (T / 256 % 256) :: (T % 256) ::
        hep_serialize_chunks cs := by
    simp [u16be]
  rw [hshape]
  rw [hep_decode_v3]
  have hguard : ((0x48 = 0x48 ∧ 0x45 = 0x45 ∧ 0x50 = 0x50 ∧ 0x33 = 0x33) ∧
      T / 256 % 256 * 256 + T % 256 =
        (0x48 :: 0x45 :: 0x50 :: 0x33 :: (T / 256 % 256) :: (T % 256) ::
          hep_serialize_chunks cs).length) := by
    refine ⟨⟨rfl, rfl, rfl, rfl⟩, ?_⟩
    simp
    omega
  rw [if_pos hguard, hep_parse_serialize cs hwf]

/-- **C1 (amended).** The HEP output writer emits a v3 buffer regardless
of the configured version (the version field is never consulted), and the
v3 decoder inverts it: for IPv4 and IPv6 packets, with or without a
configured authorization key, decoding the written buffer reproduces the
packet's ip version, protocol, addresses, ports, timestamp and payload.
(The claim's "for a v2-configured output the encoded buffer is a valid v2
encoding" fails; see the counterexample.) -/
theorem hep_write_roundtrip_v3 (hep : HepOutputCfg) (p : HepPacketData)
    (hip : (p.ip_version = 4 ∧ p.srcip.length = 4 ∧ p.dstip.length = 4) ∨
           (p.ip_version = 6 ∧ p.srcip.length = 16 ∧ p.dstip.length = 16))
    (hproto : p.ip_proto < 256) (hsport : p.sport < 65536) (hdport : p.dport < 65536)
    (htsec : p.tsec < 4294967296) (htusec : p.tusec < 4294967296)
    (htot : hep_total_len hep p < 65536) :
    hep_decode_v3 (capture_output_hep_write hep p) = some (hep_expected_packet p) ∧
    capture_output_hep_write hep p =
      capture_output_hep_write ⟨3, hep.id, hep.password⟩ p := by
  refine ⟨?_, rfl⟩
  have hT : hep_total_len hep p =
      6 + (hep_serialize_chunks (hep_written_chunks hep p)).length := by
    have h2 := capture_output_hep_write_length hep p hip
    rw [capture_output_hep_write_eq hep p hip] at h2
    simp [u16be] at h2
    omega
  rw [capture_output_hep_write_eq hep p hip,
      hep_decode_serialize (hep_written_chunks hep p) (hep_total_len hep p) hT htot
        (hep_written_chunks_wf hep p hip htot)]
  rcases hip with ⟨hv, hs, hd⟩ | ⟨hv, hs, hd⟩ <;>
    cases hpw : hep.password <;>
      (simp [hep_written_chunks, hep_extract, hep_chunk_data, hv, hpw, u16be, u32be,
             AF_INET, AF_INET6, List.find?, hep_expected_packet]
       refine ⟨?_, ?_, ?_, ?_, ?_⟩ <;> omega)

/-- Counterexample to C1's v2 component: with the output configured for
version 2, the writer's buffer still begins with the `"HEP3"` banner
(first octet 0x48) and so is not a well-formed v2 buffer, whose first
octet is the version number 2. -/
theorem hep_v2_config_still_emits_hep3 :
    sample_hep_cfg_v2.version = 2 ∧
    hep_v2_wellformed (capture_output_hep_write sample_hep_cfg_v2 sample_hep_packet)
      = false ∧
    (capture_output_hep_write sample_hep_cfg_v2 sample_hep_packet).take 4 =
      [0x48, 0x45, 0x50, 0x33] := by
  refine ⟨rfl, ?_, ?_⟩ <;> decide

/-- Witness for the amended C1: an IPv4 packet with an authorization key
configured round-trips through the writer and the v3 decoder. -/
theorem hep_write_roundtrip_v3_witness :
    hep_total_len sample_hep_cfg_v3 sample_hep_packet < 65536 ∧
    hep_decode_v3 (capture_output_hep_write sample_hep_cfg_v3 sample_hep_packet) =
      some (hep_expected_packet sample_hep_packet) :=
  ⟨by decide,
   (hep_write_roundtrip_v3 sample_hep_cfg_v3 sample_hep_packet
      (Or.inl ⟨rfl, rfl, rfl⟩) (by decide) (by decide) (by decide) (by decide)
      (by decide) (by decide)).1⟩
